import Mathlib

/-!
Shallow embedding of the `data-vault` repository (src/data_vault/futures.py,
src/data_vault/stocks.py, src/data_vault/index.py) and proofs about it.

Conventions of the embedding:
* Python `datetime` dates are modelled by the `Date` structure (proleptic
  Gregorian calendar triple).  `datetime` comparison is lexicographic on
  (year, month, day), modelled by `dateLtB` / `dateLeB`.
* Polars dataframes are modelled as lists of per-dataset row structures.
  Column order inside a row structure is not modelled: the `select` calls that
  merely reorder columns are the identity under this abstraction.
* The remote API (`bds` / `bdp` / `bdh` / `bdip`) is an opaque boundary: each
  fetch takes an environment function returning `Except String rows`; a call
  that raises is an environment returning `.error`.
* Python methods that mutate `self` are modelled as functions
  `state -> state × Option String`: the returned state is the object state
  after the call, and `some msg` records a raised exception.  In the source
  every assignment to a dataset attribute happens after the last fallible
  statement of its method, so on the error paths the state is returned
  unchanged, exactly as in the source.
* Numeric payload columns (prices, weights, amounts) are carried as `Rat`;
  the code never computes with them.
* `while` loops over dates are written as fuel-indexed recursions returning
  `Option`; `none` (fuel exhaustion) is an artifact of the embedding that the
  theorems exclude by hypothesis.
-/

namespace DataVault

/-- Calendar date, mirroring `datetime.date`: a (year, month, day) triple. -/
structure Date where
  year : Nat
  month : Nat
  day : Nat
deriving DecidableEq, Repr

/-- Gregorian leap-year rule used by `datetime` / `calendar.isleap`. -/
def isLeap (y : Nat) : Bool :=
  (y % 4 == 0 && y % 100 != 0) || y % 400 == 0

/-- Number of days of month `m` of year `y` (as in `calendar.monthrange`). -/
def daysInMonth (y m : Nat) : Nat :=
  if m == 2 then (if isLeap y then 29 else 28)
  else if m == 4 || m == 6 || m == 9 || m == 11 then 30
  else 31

/-- Validity of a date triple, as enforced by the `datetime` constructor
(year 1 or later, per `datetime.MINYEAR`). -/
def isValidDate (d : Date) : Bool :=
  1 ≤ d.year && 1 ≤ d.month && d.month ≤ 12 && 1 ≤ d.day && d.day ≤ daysInMonth d.year d.month

/-- Strict comparison of `datetime` values: lexicographic on (year, month, day). -/
def dateLtB (a b : Date) : Bool :=
  a.year < b.year ||
    (a.year == b.year && (a.month < b.month || (a.month == b.month && a.day < b.day)))

/-- Non-strict comparison of `datetime` values. -/
def dateLeB (a b : Date) : Bool := !dateLtB b a

/-- Linearisation of the (year, month) part of a date: months elapsed since
year 0.  Two dates on day 1 of their month compare exactly by `monthIndex`. -/
def monthIndex (d : Date) : Nat := d.year * 12 + (d.month - 1)

/-- Embedding of `dt.replace(day=1)`. -/
def replaceDay1 (d : Date) : Date := ⟨d.year, d.month, 1⟩

/-- One step of the `interval="1mo"` date range: the same day of the next
month (never clamped here because the code only applies it to day-1 dates). -/
def addOneMonth (d : Date) : Date :=
  if d.month < 12 then ⟨d.year, d.month + 1, d.day⟩ else ⟨d.year + 1, 1, d.day⟩

/-- First day of the month with linear index `i` (inverse of `monthIndex`
on day-1 dates). -/
def monthDate (i : Nat) : Date := ⟨i / 12, i % 12 + 1, 1⟩

/-- Embedding of `pl.date_range(start, end, interval="1mo", eager=True)`:
emit `cur` and step one month while `cur <= e`.  Fuel-indexed; `none` means
the fuel ran out before the range was exhausted. -/
def dateRange1moAux : Nat → Date → Date → Option (List Date)
  | 0, _, _ => none
  | fuel + 1, cur, e =>
    if dateLeB cur e then
      (dateRange1moAux fuel (addOneMonth cur) e).map (cur :: ·)
    else
      some []

/-- Monthly windowing shared by `FUTURES.fetch_chains` and
`STOCKS.fetch_members` (futures.py lines 70-82, stocks.py lines 68-80):
normalise both bounds to day 1 of their month, then walk in 1-month steps. -/
def monthlyDates (fuel : Nat) (startDate endDate : Date) : Option (List Date) :=
  dateRange1moAux fuel (replaceDay1 startDate) (replaceDay1 endDate)

/-- Number of whole months between the months of `s` and `e` (the
`months_between` of the specification). -/
def monthsBetween (s e : Date) : Nat := monthIndex e - monthIndex s

/-- Embedding of `current_start.replace(year=current_start.year + 10)` with
the `except ValueError` fallback `replace(year=..., day=28)` (futures.py
lines 170-174, stocks.py lines 209-213).  `datetime.replace` raises exactly
when the day does not exist in the target (year, month). -/
def addYears10 (d : Date) : Date :=
  if d.day ≤ daysInMonth (d.year + 10) d.month then ⟨d.year + 10, d.month, d.day⟩
  else ⟨d.year + 10, d.month, 28⟩

/-- Embedding of `current_end + timedelta(days=1)`: calendar successor. -/
def addOneDay (d : Date) : Date :=
  if d.day < daysInMonth d.year d.month then ⟨d.year, d.month, d.day + 1⟩
  else if d.month < 12 then ⟨d.year, d.month + 1, 1⟩
  else ⟨d.year + 1, 1, 1⟩

/-- Embedding of the 10-year chunking loop of `fetch_ohlc` (futures.py lines
165-180, stocks.py lines 204-219): while `current_start <= today`, the
candidate end is `current_start` advanced 10 years (clamped to day 28 when
that day does not exist), capped at `today`; the next start is the day after
the emitted end.  Fuel-indexed. -/
def buildChunksAux : Nat → Date → Date → Option (List (Date × Date))
  | 0, _, _ => none
  | fuel + 1, cur, today =>
    if dateLeB cur today then
      let cand := addYears10 cur
      let curEnd := if dateLtB today cand then today else cand
      (buildChunksAux fuel (addOneDay curEnd) today).map ((cur, curEnd) :: ·)
    else
      some []

/-- Fixed floor date `datetime.strptime("19900101", "%Y%m%d")` of `fetch_ohlc`. -/
def ohlcStart : Date := ⟨1990, 1, 1⟩

/-- The chunk list `fetch_ohlc` actually builds: 10-year windows from
1990-01-01 up to `today`. -/
def buildChunks (fuel : Nat) (today : Date) : Option (List (Date × Date)) :=
  buildChunksAux fuel ohlcStart today

/-- Numeric value of a digit character. -/
def digitVal (c : Char) : Nat := c.toNat - 48

/-- Digit character of a value below 10. -/
def digitChar (n : Nat) : Char := Char.ofNat (48 + n)

/-- Lexicographic comparison of character lists by code point (the order in
which the dataframe engine sorts string columns; UTF-8 byte order coincides
with code-point order). -/
def strLtB : List Char → List Char → Bool
  | [], [] => false
  | [], _ :: _ => true
  | _ :: _, [] => false
  | a :: as, b :: bs => a.toNat < b.toNat || (a.toNat == b.toNat && strLtB as bs)

/-- Strict string comparison. -/
def stringLtB (a b : String) : Bool := strLtB a.toList b.toList

/-- Split a character list at every dash. -/
def splitCharsOnDash : List Char → List (List Char)
  | [] => [[]]
  | a :: as =>
    match splitCharsOnDash as with
    | [] => [[]]
    | cur :: rest => if a == '-' then [] :: cur :: rest else (a :: cur) :: rest

/-- Embedding of `.str.split("-")` on one cell: split at every dash (a
string with no dash yields the one-element list holding it). -/
def splitOnDash (s : String) : List String :=
  (splitCharsOnDash s.toList).map String.mk

/-- Non-strict string comparison. -/
def stringLeB (a b : String) : Bool := !stringLtB b a

/-- Test for an ASCII digit (the code points of `'0'`-`'9'`). -/
def isDigitB (c : Char) : Bool := 48 ≤ c.toNat && c.toNat ≤ 57

/-- Embedding of `datetime.strptime` with format `"%Y%m%d"` at the level of
character lists: four year digits, two month digits, two day digits, and the
triple must be a constructible date. -/
def parseYmdChars : List Char → Option Date
  | [y1, y2, y3, y4, m1, m2, d1, d2] =>
    if (isDigitB y1 && isDigitB y2 && isDigitB y3 && isDigitB y4 &&
        isDigitB m1 && isDigitB m2 && isDigitB d1 && isDigitB d2) then
      let y := 1000 * digitVal y1 + 100 * digitVal y2 + 10 * digitVal y3 + digitVal y4
      let m := 10 * digitVal m1 + digitVal m2
      let d := 10 * digitVal d1 + digitVal d2
      if (1 ≤ y && 1 ≤ m && m ≤ 12 && 1 ≤ d && d ≤ daysInMonth y m) then
        some ⟨y, m, d⟩
      else none
    else none
  | _ => none

/-- Embedding of `datetime.strptime(s, "%Y%m%d")` on canonical 8-digit input,
returning the parsed date, `none` on failure.  (CPython `strptime` also
tolerates some shorter non-padded inputs; those are not canonical `YYYYMMDD`
strings and never arise in this code, which formats dates with `%Y%m%d`.) -/
def parseYyyymmdd (s : String) : Option Date :=
  parseYmdChars s.toList

/-- Embedding of `is_valid_yyyymmdd` (futures.py lines 8-16): `strptime`
succeeds on the string. -/
def isValidYyyymmdd (s : String) : Bool := (parseYyyymmdd s).isSome

/-- Embedding of `dt.strftime("%Y%m%d")` (zero padded, as the format
specifies; all dates in this code have four-digit years). -/
def formatYyyymmdd (d : Date) : String :=
  String.mk [digitChar (d.year / 1000 % 10), digitChar (d.year / 100 % 10),
             digitChar (d.year / 10 % 10), digitChar (d.year % 10),
             digitChar (d.month / 10 % 10), digitChar (d.month % 10),
             digitChar (d.day / 10 % 10), digitChar (d.day % 10)]

/-! ## Times, timestamps and the remaining parsers -/

/-- Wall-clock time, as produced by parsing `%H:%M` / `%H:%M:%S` fields. -/
structure Time where
  hour : Nat
  minute : Nat
  second : Nat
deriving DecidableEq, Repr

/-- Strict comparison of times: lexicographic on (hour, minute, second). -/
def timeLtB (a b : Time) : Bool :=
  a.hour < b.hour ||
    (a.hour == b.hour && (a.minute < b.minute ||
      (a.minute == b.minute && a.second < b.second)))

/-- Timestamp with the fixed UTC zone attached by
`dt.replace_time_zone("UTC")` in `INDEX.fetch_ohlc_1min`. -/
structure DatetimeUTC where
  date : Date
  time : Time
deriving DecidableEq, Repr

/-- Strict comparison of timestamps: date, then time. -/
def datetimeLtB (a b : DatetimeUTC) : Bool :=
  dateLtB a.date b.date || (a.date == b.date && timeLtB a.time b.time)

/-- Non-strict comparison of timestamps. -/
def datetimeLeB (a b : DatetimeUTC) : Bool := !datetimeLtB b a

/-- Two-digit numeric field value. -/
def val2 (a b : Char) : Nat := 10 * digitVal a + digitVal b

/-- Four-digit numeric field value. -/
def val4 (a b c d : Char) : Nat :=
  1000 * digitVal a + 100 * digitVal b + 10 * digitVal c + digitVal d

/-- Embedding of `.str.strptime(pl.Time, format="%H:%M")` (strict mode, the
polars default: failure to parse raises). -/
def parseHM (s : String) : Option Time :=
  match s.toList with
  | [h1, h2, ':', m1, m2] =>
    if (isDigitB h1 && isDigitB h2 && isDigitB m1 && isDigitB m2) then
      if (val2 h1 h2 ≤ 23 && val2 m1 m2 ≤ 59) then
        some ⟨val2 h1 h2, val2 m1 m2, 0⟩
      else none
    else none
  | _ => none

/-- Embedding of `.str.strptime(pl.Time, format="%H:%M:%S")` (strict). -/
def parseHMS (s : String) : Option Time :=
  match s.toList with
  | [h1, h2, ':', m1, m2, ':', s1, s2] =>
    if (isDigitB h1 && isDigitB h2 && isDigitB m1 && isDigitB m2 &&
        isDigitB s1 && isDigitB s2) then
      if (val2 h1 h2 ≤ 23 && val2 m1 m2 ≤ 59 && val2 s1 s2 ≤ 60) then
        some ⟨val2 h1 h2, val2 m1 m2, val2 s1 s2⟩
      else none
    else none
  | _ => none

/-- Embedding of `.str.strptime(..., "%Y-%m-%dT%H:%M:%S%.3f")` (strict) at
full timestamp precision. -/
def parseBBDatetime (s : String) : Option DatetimeUTC :=
  match s.toList with
  | [y1, y2, y3, y4, '-', o1, o2, '-', d1, d2, 'T',
     h1, h2, ':', i1, i2, ':', s1, s2, '.', f1, f2, f3] =>
    if (isDigitB y1 && isDigitB y2 && isDigitB y3 && isDigitB y4 &&
        isDigitB o1 && isDigitB o2 && isDigitB d1 && isDigitB d2 &&
        isDigitB h1 && isDigitB h2 && isDigitB i1 && isDigitB i2 &&
        isDigitB s1 && isDigitB s2 && isDigitB f1 && isDigitB f2 && isDigitB f3) then
      if (1 ≤ val2 o1 o2 && val2 o1 o2 ≤ 12 && 1 ≤ val2 d1 d2 &&
          val2 d1 d2 ≤ daysInMonth (val4 y1 y2 y3 y4) (val2 o1 o2) &&
          val2 h1 h2 ≤ 23 && val2 i1 i2 ≤ 59 && val2 s1 s2 ≤ 60) then
        some ⟨⟨val4 y1 y2 y3 y4, val2 o1 o2, val2 d1 d2⟩,
              ⟨val2 h1 h2, val2 i1 i2, val2 s1 s2⟩⟩
      else none
    else none
  | _ => none

/-- Embedding of `.str.strptime(pl.Date, "%Y-%m-%dT%H:%M:%S%.3f")` (strict):
parse the full timestamp, keep the date part (the cast to `pl.Date`). -/
def parseBBDate (s : String) : Option Date :=
  (parseBBDatetime s).map DatetimeUTC.date

instance {ε α : Type} [DecidableEq ε] [DecidableEq α] : DecidableEq (Except ε α) :=
  fun a b =>
    match a, b with
    | .error e1, .error e2 => decidable_of_iff (e1 = e2) (by simp)
    | .error _, .ok _ => isFalse (by simp)
    | .ok _, .error _ => isFalse (by simp)
    | .ok x, .ok y => decidable_of_iff (x = y) (by simp)

/-- Lift an optional parse result to the hard-error regime of strict
`strptime` inside a fetch. -/
def ofOption {α : Type} (o : Option α) (msg : String) : Except String α :=
  match o with
  | some x => .ok x
  | none => .error msg

/-- Embedding of `pl.concat(frames, how="vertical", rechunk=True)`: raises
on an empty frame list, otherwise stacks the rows in order. -/
def plConcat {α : Type} (ts : List (List α)) : Except String (List α) :=
  match ts with
  | [] => .error "cannot concat empty list"
  | _ => .ok ts.flatten

/-! ## Row types of the datasets -/

/-- Row of a chains / members table after normalisation: the code keeps
exactly the columns `as_of` and `symbol` (futures.py line 86, stocks.py
line 84). -/
structure MemberRow where
  as_of : Date
  symbol : String
deriving DecidableEq, Repr

/-- Raw `INDX_MWEIGHT_HIST` response row: "Index Member" and
"Percent Weight" (the latter dropped by `__fetch_constituents`). -/
structure ConstituentRaw where
  member : String
  percent_weight : Rat
deriving DecidableEq, Repr

/-- Raw `FUT_CHAIN` response row: the "Security Description" column. -/
structure ChainRaw where
  security_description : String
deriving DecidableEq, Repr

/-- Raw `bdp` response row for `STOCKS.fetch_meta` (one row per ticker,
fields of stocks.py lines 94-111, labels already lowercased by the
embedding; untouched payload fields carried as strings). -/
structure StockMetaRaw where
  security : String
  long_comp_name : String := ""
  industry_sector : String := ""
  industry_group : String := ""
  industry_subgroup : String := ""
  gics_sector_name : String := ""
  gics_industry_name : String := ""
  gics_industry_group_name : String := ""
  gics_sub_industry_name : String := ""
  country_iso : String := ""
  crncy : String := ""
  dvd_crncy : String := ""
  primary_exchange_name : String := ""
  exch_code : String := ""
  id_mic_prim_exch : String := ""
  trading_day_start_time_eod : String := "00:00:00"
  trading_day_end_time_eod : String := "00:00:00"
deriving DecidableEq, Repr

/-- Normalised `STOCKS` metadata row: `security` renamed to `symbol`, the
two trading-day fields parsed as times. -/
structure StockMetaRow where
  symbol : String
  long_comp_name : String := ""
  industry_sector : String := ""
  industry_group : String := ""
  industry_subgroup : String := ""
  gics_sector_name : String := ""
  gics_industry_name : String := ""
  gics_industry_group_name : String := ""
  gics_sub_industry_name : String := ""
  country_iso : String := ""
  crncy : String := ""
  dvd_crncy : String := ""
  primary_exchange_name : String := ""
  exch_code : String := ""
  id_mic_prim_exch : String := ""
  trading_day_start_time_eod : Time
  trading_day_end_time_eod : Time
deriving DecidableEq, Repr

/-- Raw `bdp` response row for `FUTURES.fetch_meta` (fields of futures.py
lines 96-115; untouched payload fields carried as strings). -/
structure FutMetaRaw where
  security : String
  id_bb_global_ult_parent_co_name : String := ""
  fut_exch_name_long : String := ""
  derivative_delivery_type : String := ""
  quote_units : String := ""
  quoted_crncy : String := ""
  fut_trading_units : String := ""
  fut_first_trade_dt : String
  last_tradeable_dt : String := "2000-01-01T00:00:00.000"
  fut_notice_first : String := "2000-01-01T00:00:00.000"
  fut_dlv_dt_first : String := "2000-01-01T00:00:00.000"
  fut_dlv_dt_last : String := "2000-01-01T00:00:00.000"
  fut_contract_dt : String := ""
  fut_cont_size : String := ""
  fut_trading_hrs : String := "08:00-17:00"
  fut_init_spec_ml : String := ""
  fut_sec_spec_ml : String := ""
  fut_init_hedge_ml : String := ""
  fut_sec_hedge_ml : String := ""
deriving DecidableEq, Repr

/-- Normalised `FUTURES` metadata row: five date columns parsed, the
trading-hours range split into start/end times (`list.get(1)` of a split
with no separator is null, hence the optional end), original range column
dropped. -/
structure FutMetaRow where
  symbol : String
  id_bb_global_ult_parent_co_name : String := ""
  fut_exch_name_long : String := ""
  derivative_delivery_type : String := ""
  quote_units : String := ""
  quoted_crncy : String := ""
  fut_trading_units : String := ""
  fut_first_trade_dt : Date
  last_tradeable_dt : Date
  fut_notice_first : Date
  fut_dlv_dt_first : Date
  fut_dlv_dt_last : Date
  fut_contract_dt : String := ""
  fut_cont_size : String := ""
  fut_init_spec_ml : String := ""
  fut_sec_spec_ml : String := ""
  fut_init_hedge_ml : String := ""
  fut_sec_hedge_ml : String := ""
  trading_hrs_start : Time
  trading_hrs_end : Option Time
deriving DecidableEq, Repr

/-- Raw `bdh` OHLC response row for futures (schema of futures.py lines
205-214). -/
structure FutOhlcRaw where
  security : String
  date : String
  px_open : Rat := 0
  px_high : Rat := 0
  px_low : Rat := 0
  px_last : Rat := 0
  px_volume : Rat := 0
  open_int : Rat := 0
deriving DecidableEq, Repr

/-- Normalised futures OHLC row. -/
structure FutOhlcRow where
  symbol : String
  date : Date
  px_open : Rat := 0
  px_high : Rat := 0
  px_low : Rat := 0
  px_last : Rat := 0
  px_volume : Rat := 0
  open_int : Rat := 0
deriving DecidableEq, Repr

/-- Raw `bdh` OHLC response row for stocks (schema of stocks.py lines
245-255). -/
structure StockOhlcRaw where
  security : String
  date : String
  px_open : Rat := 0
  px_high : Rat := 0
  px_low : Rat := 0
  px_last : Rat := 0
  px_volume : Rat := 0
  cur_mkt_cap : Rat := 0
  day_to_day_tot_return_gross_dvds : Rat := 0
deriving DecidableEq, Repr

/-- Normalised stocks OHLC row. -/
structure StockOhlcRow where
  symbol : String
  date : Date
  px_open : Rat := 0
  px_high : Rat := 0
  px_low : Rat := 0
  px_last : Rat := 0
  px_volume : Rat := 0
  cur_mkt_cap : Rat := 0
  day_to_day_tot_return_gross_dvds : Rat := 0
deriving DecidableEq, Repr

/-- Raw `DVD_HIST_ALL` response row (schema of stocks.py lines 157-165,
labels already lowercased with spaces and hyphens replaced, as the rename
in `__fetch_div` does). -/
structure DivRaw where
  declared_date : String
  ex_date : String
  record_date : String
  payable_date : String
  dividend_amount : Rat := 0
  dividend_frequency : String := ""
  dividend_type : String := ""
deriving DecidableEq, Repr

/-- Normalised dividend row: symbol tagged, four date columns parsed. -/
structure DivRow where
  symbol : String
  declared_date : Date
  ex_date : Date
  record_date : Date
  payable_date : Date
  dividend_amount : Rat := 0
  dividend_frequency : String := ""
  dividend_type : String := ""
deriving DecidableEq, Repr

/-- Raw `bdh` response row for `INDEX.fetch_ohlc_daily` (schema of index.py
lines 46-54). -/
structure IdxOhlcRaw where
  security : String
  date : String
  px_open : Rat := 0
  px_high : Rat := 0
  px_low : Rat := 0
  px_last : Rat := 0
  px_volume : Rat := 0
deriving DecidableEq, Repr

/-- Normalised daily index OHLC row. -/
structure IdxOhlcRow where
  symbol : String
  date : Date
  px_open : Rat := 0
  px_high : Rat := 0
  px_low : Rat := 0
  px_last : Rat := 0
  px_volume : Rat := 0
deriving DecidableEq, Repr

/-- Raw `bdip` intraday bar row (schema of index.py lines 80-89). -/
structure Idx1MinRaw where
  time : String
  open' : Rat := 0
  high : Rat := 0
  low : Rat := 0
  close : Rat := 0
  volume : Rat := 0
  numEvents : Rat := 0
  value : Rat := 0
deriving DecidableEq, Repr

/-- Normalised intraday bar row: combined datetime parsed with UTC
attached, index symbol tagged on every row. -/
structure Idx1MinRow where
  symbol : String
  datetime : DatetimeUTC
  px_open : Rat := 0
  px_high : Rat := 0
  px_low : Rat := 0
  px_close : Rat := 0
  px_volume : Rat := 0
  numEvents : Rat := 0
  value : Rat := 0
deriving DecidableEq, Repr

/-! ## Object state and accessors -/

/-- State of a `STOCKS` object: the constructor arguments plus the lazily
populated dataset attributes (stocks.py lines 9-16).  `_fundamentals` is
declared but never populated by any method. -/
structure StocksState where
  index : String
  members : Option (List MemberRow) := none
  symbols : Option (List String) := none
  meta : Option (List StockMetaRow) := none
  divs : Option (List DivRow) := none
  ohlc : Option (List StockOhlcRow) := none
  fundamentals : Option Unit := none
deriving DecidableEq, Repr

/-- State of a `FUTURES` object (futures.py lines 20-25). -/
structure FuturesState where
  active_contract : String
  chains : Option (List MemberRow) := none
  symbols : Option (List String) := none
  meta : Option (List FutMetaRow) := none
  ohlc : Option (List FutOhlcRow) := none
deriving DecidableEq, Repr

/-- State of an `INDEX` object (index.py lines 8-11). -/
structure IndexState where
  index : String
  ohlc_daily : Option (List IdxOhlcRow) := none
  ohlc_1min : Option (List Idx1MinRow) := none
deriving DecidableEq, Repr

/-- Embedding of `attr_name.lstrip('_')`. -/
def stripUnderscores (s : String) : String :=
  String.mk (s.toList.dropWhile (· == '_'))

/-- Embedding of `__get_or_raise` (identical in all three classes): return
the attribute if populated, otherwise raise an `AttributeError` whose
message names the fetch method the caller is told to run first. -/
def getOrRaise {α : Type} (attrName fetchMethodName : String) (v : Option α) :
    Except String α :=
  match v with
  | some x => .ok x
  | none =>
    .error (stripUnderscores attrName ++ " not available yet. Please run `"
      ++ fetchMethodName ++ "()` first.")

/-- The `STOCKS.members` property. -/
def stocksMembersAcc (st : StocksState) : Except String (List MemberRow) :=
  getOrRaise "_members" "fetch_members" st.members

/-- The `STOCKS.symbols` property (stocks.py lines 28-30). -/
def stocksSymbolsAcc (st : StocksState) : Except String (List String) :=
  getOrRaise "_symbols" "fetch_symbols" st.symbols

/-- The `STOCKS.meta` property. -/
def stocksMetaAcc (st : StocksState) : Except String (List StockMetaRow) :=
  getOrRaise "_meta" "fetch_meta" st.meta

/-- The `STOCKS.divs` property. -/
def stocksDivsAcc (st : StocksState) : Except String (List DivRow) :=
  getOrRaise "_divs" "fetch_divs" st.divs

/-- The `STOCKS.ohlc` property. -/
def stocksOhlcAcc (st : StocksState) : Except String (List StockOhlcRow) :=
  getOrRaise "_ohlc" "fetch_ohlc" st.ohlc

/-- The `STOCKS.fundamentals` property. -/
def stocksFundamentalsAcc (st : StocksState) : Except String Unit :=
  getOrRaise "_fundamentals" "fetch_fundamentals" st.fundamentals

/-- The `FUTURES.chains` property. -/
def futuresChainsAcc (st : FuturesState) : Except String (List MemberRow) :=
  getOrRaise "_chains" "fetch_chains" st.chains

/-- The `FUTURES.symbols` property (futures.py lines 37-39). -/
def futuresSymbolsAcc (st : FuturesState) : Except String (List String) :=
  getOrRaise "_symbols" "fetch_chains" st.symbols

/-- The `FUTURES.meta` property. -/
def futuresMetaAcc (st : FuturesState) : Except String (List FutMetaRow) :=
  getOrRaise "_meta" "fetch_meta" st.meta

/-- The `FUTURES.ohlc` property. -/
def futuresOhlcAcc (st : FuturesState) : Except String (List FutOhlcRow) :=
  getOrRaise "_ohlc" "fetch_ohlc" st.ohlc

/-- The fetch methods actually defined on the `STOCKS` class. -/
def stocksFetchMethods : List String :=
  ["fetch_members", "fetch_meta", "fetch_divs", "fetch_ohlc"]

/-- The fetch methods actually defined on the `FUTURES` class. -/
def futuresFetchMethods : List String :=
  ["fetch_chains", "fetch_meta", "fetch_ohlc"]

/-! ## Row orders used by the `sort` calls -/

/-- Order by a date key, then a string key (a `sort([date_col, str_col])`). -/
def lexDS {α : Type} (f : α → Date) (g : α → String) (a b : α) : Prop :=
  dateLtB (f a) (f b) = true ∨ (f a = f b ∧ stringLeB (g a) (g b) = true)

/-- Order by a string key, then a date key (a `sort([str_col, date_col])`). -/
def lexSD {α : Type} (f : α → String) (g : α → Date) (a b : α) : Prop :=
  stringLtB (f a) (f b) = true ∨ (f a = f b ∧ dateLeB (g a) (g b) = true)

instance {α : Type} (f : α → Date) (g : α → String) : DecidableRel (lexDS f g) :=
  fun a b =>
    inferInstanceAs
      (Decidable (dateLtB (f a) (f b) = true ∨ (f a = f b ∧ stringLeB (g a) (g b) = true)))

instance {α : Type} (f : α → String) (g : α → Date) : DecidableRel (lexSD f g) :=
  fun a b =>
    inferInstanceAs
      (Decidable (stringLtB (f a) (f b) = true ∨ (f a = f b ∧ dateLeB (g a) (g b) = true)))

/-- The `sort(["symbol"])` order of `STOCKS.fetch_meta` (stocks.py line
136): by symbol only. -/
def stockMetaOrder (a b : StockMetaRow) : Prop := stringLeB a.symbol b.symbol = true

instance : DecidableRel stockMetaOrder :=
  fun a b => inferInstanceAs (Decidable (stringLeB a.symbol b.symbol = true))

/-- Order by symbol then timestamp, for the intraday sort of index.py. -/
def lex1Min (a b : Idx1MinRow) : Prop :=
  stringLtB a.symbol b.symbol = true ∨
    (a.symbol = b.symbol ∧ datetimeLeB a.datetime b.datetime = true)

instance : DecidableRel lex1Min :=
  fun a b =>
    inferInstanceAs
      (Decidable (stringLtB a.symbol b.symbol = true ∨
        (a.symbol = b.symbol ∧ datetimeLeB a.datetime b.datetime = true)))

/-! ## The fetch methods -/

/-- Embedding of `STOCKS.fetch_members` (stocks.py lines 66-88): one
`INDX_MWEIGHT_HIST` call per month in the monthly window sequence, each row
tagged with the as-of date and its "Index Member" value suffixed with
" Equity" (`__fetch_constituents`, lines 48-64); concatenate, sort by
`(as_of, symbol)`, and derive the distinct symbol list. -/
def stocksFetchMembers (env : Date → Except String (List ConstituentRaw))
    (fuel : Nat) (startDate endDate : Date) (st : StocksState) :
    StocksState × Option String :=
  match monthlyDates fuel startDate endDate with
  | none => (st, some "windowing fuel exhausted")
  | some dates =>
    match dates.mapM (fun d => (env d).map (fun raw =>
        raw.map (fun r => ({ as_of := d, symbol := r.member ++ " Equity" } : MemberRow)))) with
    | .error e => (st, some e)
    | .ok tables =>
      match plConcat tables with
      | .error e => (st, some e)
      | .ok rows =>
        let sorted := List.insertionSort (lexDS MemberRow.as_of MemberRow.symbol) rows
        ({ st with members := some sorted,
                   symbols := some ((sorted.map MemberRow.symbol).dedup) }, none)

/-- Embedding of `FUTURES.fetch_chains` (futures.py lines 65-90): validate
both `YYYYMMDD` bounds, one `FUT_CHAIN` call per month with rows keeping
the "Security Description" value as symbol (`__fetch_chain`, lines 49-63);
concatenate, sort by `(as_of, symbol)`, derive the distinct symbol list. -/
def futuresFetchChains (env : Date → Except String (List ChainRaw))
    (fuel : Nat) (startS endS : String) (st : FuturesState) :
    FuturesState × Option String :=
  match parseYyyymmdd startS, parseYyyymmdd endS with
  | some sd, some ed =>
    match monthlyDates fuel sd ed with
    | none => (st, some "windowing fuel exhausted")
    | some dates =>
      match dates.mapM (fun d => (env d).map (fun raw =>
          raw.map (fun r => ({ as_of := d, symbol := r.security_description } : MemberRow)))) with
      | .error e => (st, some e)
      | .ok tables =>
        match plConcat tables with
        | .error e => (st, some e)
        | .ok rows =>
          let sorted := List.insertionSort (lexDS MemberRow.as_of MemberRow.symbol) rows
          ({ st with chains := some sorted,
                     symbols := some ((sorted.map MemberRow.symbol).dedup) }, none)
  | _, _ => (st, some "Date must be in 'YYYYMMDD' format (e.g., '20250410')")

/-- Normalisation of one `STOCKS.fetch_meta` row: rename `security` to
`symbol` and parse the two trading-day time fields with `%H:%M:%S`
(stocks.py lines 120-136); a parse failure raises. -/
def parseStockMetaRow (r : StockMetaRaw) : Except String StockMetaRow :=
  match parseHMS r.trading_day_start_time_eod, parseHMS r.trading_day_end_time_eod with
  | some t1, some t2 =>
    .ok { symbol := r.security, long_comp_name := r.long_comp_name,
          industry_sector := r.industry_sector, industry_group := r.industry_group,
          industry_subgroup := r.industry_subgroup,
          gics_sector_name := r.gics_sector_name,
          gics_industry_name := r.gics_industry_name,
          gics_industry_group_name := r.gics_industry_group_name,
          gics_sub_industry_name := r.gics_sub_industry_name,
          country_iso := r.country_iso, crncy := r.crncy,
          dvd_crncy := r.dvd_crncy,
          primary_exchange_name := r.primary_exchange_name,
          exch_code := r.exch_code, id_mic_prim_exch := r.id_mic_prim_exch,
          trading_day_start_time_eod := t1, trading_day_end_time_eod := t2 }
  | _, _ => .error "could not parse time with format %H:%M:%S"

/-- Embedding of `STOCKS.fetch_meta` (stocks.py lines 90-139): requires
members and symbols, one `bdp` call across all symbols, normalise, sort by
`symbol` only. -/
def stocksFetchMeta (env : List String → Except String (List StockMetaRaw))
    (st : StocksState) : StocksState × Option String :=
  match st.members, st.symbols with
  | some _, some syms =>
    match env syms with
    | .error e => (st, some e)
    | .ok raw =>
      match raw.mapM parseStockMetaRow with
      | .error e => (st, some e)
      | .ok rows =>
        ({ st with meta := some (List.insertionSort stockMetaOrder rows) }, none)
  | _, _ =>
    (st, some "Historical index members must be fetched. Please run `fetch_members()` first.")

/-- Normalisation of one `FUTURES.fetch_meta` row (futures.py lines
124-153): five date columns parsed from timestamps, the trading-hours
string split on "-" with element 0 parsed as start (hard failure) and
element 1, when present, parsed as end (a missing element is null and stays
null). -/
def parseFutMetaRow (r : FutMetaRaw) : Except String FutMetaRow := do
  let d1 ← ofOption (parseBBDate r.fut_first_trade_dt)
    "could not parse date with format %Y-%m-%dT%H:%M:%S%.3f"
  let d2 ← ofOption (parseBBDate r.last_tradeable_dt)
    "could not parse date with format %Y-%m-%dT%H:%M:%S%.3f"
  let d3 ← ofOption (parseBBDate r.fut_notice_first)
    "could not parse date with format %Y-%m-%dT%H:%M:%S%.3f"
  let d4 ← ofOption (parseBBDate r.fut_dlv_dt_first)
    "could not parse date with format %Y-%m-%dT%H:%M:%S%.3f"
  let d5 ← ofOption (parseBBDate r.fut_dlv_dt_last)
    "could not parse date with format %Y-%m-%dT%H:%M:%S%.3f"
  let parts := splitOnDash r.fut_trading_hrs
  let t1 ← ofOption (match parts.head? with
      | some p => parseHM p
      | none => none) "could not parse time with format %H:%M"
  let t2 ← match parts[1]? with
    | none => Except.ok none
    | some p => (ofOption (parseHM p) "could not parse time with format %H:%M").map some
  Except.ok
    { symbol := r.security,
      id_bb_global_ult_parent_co_name := r.id_bb_global_ult_parent_co_name,
      fut_exch_name_long := r.fut_exch_name_long,
      derivative_delivery_type := r.derivative_delivery_type,
      quote_units := r.quote_units, quoted_crncy := r.quoted_crncy,
      fut_trading_units := r.fut_trading_units,
      fut_first_trade_dt := d1, last_tradeable_dt := d2,
      fut_notice_first := d3, fut_dlv_dt_first := d4, fut_dlv_dt_last := d5,
      fut_contract_dt := r.fut_contract_dt, fut_cont_size := r.fut_cont_size,
      fut_init_spec_ml := r.fut_init_spec_ml, fut_sec_spec_ml := r.fut_sec_spec_ml,
      fut_init_hedge_ml := r.fut_init_hedge_ml, fut_sec_hedge_ml := r.fut_sec_hedge_ml,
      trading_hrs_start := t1, trading_hrs_end := t2 }

/-- Embedding of `FUTURES.fetch_meta` (futures.py lines 92-156): requires
chains and symbols, one `bdp` call, normalise, sort by
`(fut_first_trade_dt, symbol)`. -/
def futuresFetchMeta (env : List String → Except String (List FutMetaRaw))
    (st : FuturesState) : FuturesState × Option String :=
  match st.chains, st.symbols with
  | some _, some syms =>
    match env syms with
    | .error e => (st, some e)
    | .ok raw =>
      match raw.mapM parseFutMetaRow with
      | .error e => (st, some e)
      | .ok rows =>
        ({ st with meta := some (List.insertionSort
            (lexDS FutMetaRow.fut_first_trade_dt FutMetaRow.symbol) rows) }, none)
  | _, _ =>
    (st, some "Historical future chains must be fetched. Please run `fetch_chains()` first.")

/-- Normalisation of one futures OHLC row: `security` renamed, timestamp
column parsed to a date (hard failure in strict mode). -/
def parseFutOhlcRow (r : FutOhlcRaw) : Except String FutOhlcRow :=
  match parseBBDate r.date with
  | some d =>
    .ok { symbol := r.security, date := d, px_open := r.px_open,
          px_high := r.px_high, px_low := r.px_low, px_last := r.px_last,
          px_volume := r.px_volume, open_int := r.open_int }
  | none => .error "could not parse date with format %Y-%m-%dT%H:%M:%S%.3f"

/-- Embedding of `FUTURES.fetch_ohlc` (futures.py lines 158-228): requires
symbols, builds the 10-year chunks from 1990-01-01 to `today`, one `bdh`
call per chunk across all symbols, concatenates all chunk tables, sorts by
`(symbol, date)` and moves the identifier columns first (a plain column
reorder, the identity on rows). -/
def futuresFetchOhlc (env : List String → Date → Date → Except String (List FutOhlcRaw))
    (today : Date) (fuel : Nat) (st : FuturesState) : FuturesState × Option String :=
  match st.symbols with
  | none =>
    (st, some "Historical future chains must be fetched. Please run `fetch_chains()` first.")
  | some syms =>
    match buildChunks fuel today with
    | none => (st, some "windowing fuel exhausted")
    | some chunks =>
      match chunks.mapM (fun w => (env syms w.1 w.2).bind
          (fun raw => raw.mapM parseFutOhlcRow)) with
      | .error e => (st, some e)
      | .ok tables =>
        match plConcat tables with
        | .error e => (st, some e)
        | .ok rows =>
          ({ st with ohlc := some (List.insertionSort
              (lexSD FutOhlcRow.symbol FutOhlcRow.date) rows) }, none)

/-- Normalisation of one stocks OHLC row. -/
def parseStockOhlcRow (r : StockOhlcRaw) : Except String StockOhlcRow :=
  match parseBBDate r.date with
  | some d =>
    .ok { symbol := r.security, date := d, px_open := r.px_open,
          px_high := r.px_high, px_low := r.px_low, px_last := r.px_last,
          px_volume := r.px_volume, cur_mkt_cap := r.cur_mkt_cap,
          day_to_day_tot_return_gross_dvds := r.day_to_day_tot_return_gross_dvds }
  | none => .error "could not parse date with format %Y-%m-%dT%H:%M:%S%.3f"

/-- Embedding of `STOCKS.fetch_ohlc` (stocks.py lines 197-269), the same
chunked loop as for futures with the stocks field list. -/
def stocksFetchOhlc (env : List String → Date → Date → Except String (List StockOhlcRaw))
    (today : Date) (fuel : Nat) (st : StocksState) : StocksState × Option String :=
  match st.symbols with
  | none =>
    (st, some "Historical index members must be fetched. Please run `fetch_members()` first.")
  | some syms =>
    match buildChunks fuel today with
    | none => (st, some "windowing fuel exhausted")
    | some chunks =>
      match chunks.mapM (fun w => (env syms w.1 w.2).bind
          (fun raw => raw.mapM parseStockOhlcRow)) with
      | .error e => (st, some e)
      | .ok tables =>
        match plConcat tables with
        | .error e => (st, some e)
        | .ok rows =>
          ({ st with ohlc := some (List.insertionSort
              (lexSD StockOhlcRow.symbol StockOhlcRow.date) rows) }, none)

/-- Normalisation of one dividend row inside the `try` of `__fetch_div`:
tag the symbol and parse the four date columns; any failure aborts the
whole per-symbol table. -/
def parseDivRow (symbol : String) (r : DivRaw) : Option DivRow := do
  let d1 ← parseBBDate r.declared_date
  let d2 ← parseBBDate r.ex_date
  let d3 ← parseBBDate r.record_date
  let d4 ← parseBBDate r.payable_date
  pure { symbol := symbol, declared_date := d1, ex_date := d2,
         record_date := d3, payable_date := d4,
         dividend_amount := r.dividend_amount,
         dividend_frequency := r.dividend_frequency,
         dividend_type := r.dividend_type }

/-- The `try` block of `STOCKS.__fetch_div` (stocks.py lines 167-180): build
the typed per-symbol table; on any schema or parse error return `None`
(the bare `except`).  The `bds` call itself is outside this block. -/
def fetchDivOne (symbol : String) (raw : List DivRaw) : Option (List DivRow) :=
  raw.mapM (parseDivRow symbol)

/-- Embedding of `STOCKS.fetch_divs` (stocks.py lines 182-195): requires
members and symbols; one `bds` call per symbol — the call itself is outside
the `try`, so a failing call propagates — with malformed payloads skipped
(`None` filtered out); concatenation of the surviving tables (raising on an
empty list), sort by `(symbol, declared_date)`. -/
def stocksFetchDivs (env : String → Except String (List DivRaw))
    (st : StocksState) : StocksState × Option String :=
  match st.members, st.symbols with
  | some _, some syms =>
    match syms.mapM (fun s => (env s).map (fetchDivOne s)) with
    | .error e => (st, some e)
    | .ok opts =>
      match plConcat (opts.filterMap id) with
      | .error e => (st, some e)
      | .ok rows =>
        ({ st with divs := some (List.insertionSort
            (lexSD DivRow.symbol DivRow.declared_date) rows) }, none)
  | _, _ =>
    (st, some "Historical index members must be fetched. Please run `fetch_members()` first.")

/-- Normalisation of one daily index OHLC row. -/
def parseIdxOhlcRow (r : IdxOhlcRaw) : Except String IdxOhlcRow :=
  match parseBBDate r.date with
  | some d =>
    .ok { symbol := r.security, date := d, px_open := r.px_open,
          px_high := r.px_high, px_low := r.px_low, px_last := r.px_last,
          px_volume := r.px_volume }
  | none => .error "could not parse date with format %Y-%m-%dT%H:%M:%S%.3f"

/-- Embedding of `INDEX.fetch_ohlc_daily` (index.py lines 27-66): a single
`bdh` call for the index ticker, normalise, sort by `(symbol, date)`. -/
def indexFetchOhlcDaily (env : String → Date → Date → Except String (List IdxOhlcRaw))
    (startD endD : Date) (st : IndexState) : IndexState × Option String :=
  match env st.index startD endD with
  | .error e => (st, some e)
  | .ok raw =>
    match raw.mapM parseIdxOhlcRow with
    | .error e => (st, some e)
    | .ok rows =>
      ({ st with ohlc_daily := some (List.insertionSort
          (lexSD IdxOhlcRow.symbol IdxOhlcRow.date) rows) }, none)

/-- Normalisation of one intraday bar: parse the combined datetime, attach
UTC, tag the index symbol (the API does not echo it for this endpoint). -/
def parseIdx1MinRow (index : String) (r : Idx1MinRaw) : Except String Idx1MinRow :=
  match parseBBDatetime r.time with
  | some dt =>
    .ok { symbol := index, datetime := dt, px_open := r.open',
          px_high := r.high, px_low := r.low, px_close := r.close,
          px_volume := r.volume, numEvents := r.numEvents, value := r.value }
  | none => .error "could not parse datetime with format %Y-%m-%dT%H:%M:%S%.3f"

/-- Embedding of `INDEX.fetch_ohlc_1min` (index.py lines 68-102): a single
`bdip` call, normalise, sort by `(symbol, datetime)`. -/
def indexFetchOhlc1Min (env : String → Nat → Date → Date → Except String (List Idx1MinRaw))
    (interval : Nat) (startD endD : Date) (st : IndexState) : IndexState × Option String :=
  match env st.index interval startD endD with
  | .error e => (st, some e)
  | .ok raw =>
    match raw.mapM (parseIdx1MinRow st.index) with
    | .error e => (st, some e)
    | .ok rows =>
      ({ st with ohlc_1min := some (List.insertionSort lex1Min rows) }, none)

/-- Modelled from the spec: the order in which the specification claims
every `fetch_meta` output is sorted — "by primary date field then symbol".
The stocks metadata table has no date column; its only date-like fields are
the two trading-day times, so the nearest reading of the claimed key is
`trading_day_start_time_eod`, then `symbol`. -/
def stockMetaSpecOrder (a b : StockMetaRow) : Prop :=
  timeLtB a.trading_day_start_time_eod b.trading_day_start_time_eod = true ∨
    (a.trading_day_start_time_eod = b.trading_day_start_time_eod ∧
      stringLeB a.symbol b.symbol = true)

instance : DecidableRel stockMetaSpecOrder :=
  fun a b =>
    inferInstanceAs
      (Decidable (timeLtB a.trading_day_start_time_eod b.trading_day_start_time_eod = true ∨
        (a.trading_day_start_time_eod = b.trading_day_start_time_eod ∧
          stringLeB a.symbol b.symbol = true)))

/-! ## Concrete stub environments and states used by witnesses -/

/-- Initial `STOCKS("SPX INDEX")` state: nothing fetched yet. -/
def exStocksInit : StocksState := { index := "SPX INDEX" }

/-- A `STOCKS` state with membership already fetched: two symbols X and Y. -/
def exMembersState : StocksState :=
  { index := "EXA INDEX",
    members := some [⟨⟨2020, 1, 1⟩, "X Equity"⟩, ⟨⟨2020, 1, 1⟩, "Y Equity"⟩],
    symbols := some ["X Equity", "Y Equity"] }

/-- A `FUTURES` state with chains already fetched: one contract symbol. -/
def exFuturesState : FuturesState :=
  { active_contract := "COA Comdty",
    chains := some [⟨⟨2020, 1, 1⟩, "COAZ99 Comdty"⟩],
    symbols := some ["COAZ99 Comdty"] }

/-- Initial `INDEX` state. -/
def exIndexState : IndexState := { index := "EXA INDEX" }

/-- A well-formed `DVD_HIST_ALL` response row. -/
def exGoodDivRaw : DivRaw :=
  { declared_date := "2020-01-02T00:00:00.000", ex_date := "2020-01-03T00:00:00.000",
    record_date := "2020-01-06T00:00:00.000", payable_date := "2020-01-09T00:00:00.000",
    dividend_amount := 1, dividend_frequency := "Quarter", dividend_type := "Regular Cash" }

/-- The normalised form of `exGoodDivRaw` for symbol Y. -/
def exGoodDivRowY : DivRow :=
  { symbol := "Y Equity", declared_date := ⟨2020, 1, 2⟩, ex_date := ⟨2020, 1, 3⟩,
    record_date := ⟨2020, 1, 6⟩, payable_date := ⟨2020, 1, 9⟩, dividend_amount := 1,
    dividend_frequency := "Quarter", dividend_type := "Regular Cash" }

/-- A malformed `DVD_HIST_ALL` response row (unparsable declared date). -/
def exBadDivRaw : DivRaw :=
  { declared_date := "garbage", ex_date := "2020-01-03T00:00:00.000",
    record_date := "2020-01-06T00:00:00.000", payable_date := "2020-01-09T00:00:00.000" }

/-- Dividend environment where X returns a malformed payload and Y a good one. -/
def envDivParseFailX : String → Except String (List DivRaw) :=
  fun s => if s == "X Equity" then .ok [exBadDivRaw] else .ok [exGoodDivRaw]

/-- Dividend environment where the remote call itself fails for X. -/
def envDivCallFailX : String → Except String (List DivRaw) :=
  fun s => if s == "X Equity" then .error "remote call failed" else .ok [exGoodDivRaw]

/-- Dividend environment returning a malformed payload for every symbol. -/
def envDivAllBad : String → Except String (List DivRaw) := fun _ => .ok [exBadDivRaw]

/-- Members environment returning two constituents every month. -/
def envMembersTwo : Date → Except String (List ConstituentRaw) :=
  fun _ => .ok [⟨"AAPL", 1⟩, ⟨"MSFT", 2⟩]

/-- Stocks metadata environment whose symbol order disagrees with the order
of the trading-day start times. -/
def c7StockMetaEnv : List String → Except String (List StockMetaRaw) :=
  fun _ =>
    .ok [{ security := "B Equity", trading_day_start_time_eod := "09:00:00" },
         { security := "A Equity", trading_day_start_time_eod := "10:00:00" }]

/-- Normalised stocks metadata row for symbol A (start time 10:00:00). -/
def c7RowA : StockMetaRow :=
  { symbol := "A Equity", trading_day_start_time_eod := ⟨10, 0, 0⟩,
    trading_day_end_time_eod := ⟨0, 0, 0⟩ }

/-- Normalised stocks metadata row for symbol B (start time 09:00:00). -/
def c7RowB : StockMetaRow :=
  { symbol := "B Equity", trading_day_start_time_eod := ⟨9, 0, 0⟩,
    trading_day_end_time_eod := ⟨0, 0, 0⟩ }

/-- Futures metadata environment with a single parseable row. -/
def c7FutMetaEnv : List String → Except String (List FutMetaRaw) :=
  fun _ => .ok [{ security := "COAZ99 Comdty",
                  fut_first_trade_dt := "1999-01-04T00:00:00.000" }]

/-- The normalised form of the `c7FutMetaEnv` row. -/
def c7FutRow : FutMetaRow :=
  { symbol := "COAZ99 Comdty", fut_first_trade_dt := ⟨1999, 1, 4⟩,
    last_tradeable_dt := ⟨2000, 1, 1⟩, fut_notice_first := ⟨2000, 1, 1⟩,
    fut_dlv_dt_first := ⟨2000, 1, 1⟩, fut_dlv_dt_last := ⟨2000, 1, 1⟩,
    trading_hrs_start := ⟨8, 0, 0⟩, trading_hrs_end := some ⟨17, 0, 0⟩ }

/-- Failing remote environments (every call raises), one per call shape. -/
def envMemFail : Date → Except String (List ConstituentRaw) := fun _ => .error "boom"

/-- Failing stocks metadata environment. -/
def envSMetaFail : List String → Except String (List StockMetaRaw) := fun _ => .error "boom"

/-- Failing dividends environment. -/
def envDivFail : String → Except String (List DivRaw) := fun _ => .error "boom"

/-- Failing stocks OHLC environment. -/
def envSOhlcFail : List String → Date → Date → Except String (List StockOhlcRaw) :=
  fun _ _ _ => .error "boom"

/-- Failing chains environment. -/
def envChainFail : Date → Except String (List ChainRaw) := fun _ => .error "boom"

/-- Failing futures metadata environment. -/
def envFMetaFail : List String → Except String (List FutMetaRaw) := fun _ => .error "boom"

/-- Failing futures OHLC environment. -/
def envFOhlcFail : List String → Date → Date → Except String (List FutOhlcRaw) :=
  fun _ _ _ => .error "boom"

/-- Failing daily index OHLC environment. -/
def envIdxFail : String → Date → Date → Except String (List IdxOhlcRaw) :=
  fun _ _ _ => .error "boom"

/-- Failing intraday index environment. -/
def envIdx1Fail : String → Nat → Date → Date → Except String (List Idx1MinRaw) :=
  fun _ _ _ _ => .error "boom"

/-! ## Basic facts about the date order and the month walk -/

theorem dateLtB_irrefl (a : Date) : dateLtB a a = false := by
  cases a; simp [dateLtB]

theorem dateLeB_refl (a : Date) : dateLeB a a = true := by
  simp [dateLeB, dateLtB_irrefl]

theorem monthIndex_addOneMonth (d : Date) (h1 : 1 ≤ d.month) (h2 : d.month ≤ 12) :
    monthIndex (addOneMonth d) = monthIndex d + 1 := by
  cases d; unfold addOneMonth monthIndex; split <;> simp_all <;> omega

theorem monthDate_monthIndex (d : Date) (h1 : 1 ≤ d.month) (h2 : d.month ≤ 12)
    (h3 : d.day = 1) : monthDate (monthIndex d) = d := by
  cases d; simp_all [monthDate, monthIndex, Date.mk.injEq]; omega

theorem monthIndex_monthDate (i : Nat) : monthIndex (monthDate i) = i := by
  simp [monthDate, monthIndex]; omega

theorem dateLeB_day1 (a b : Date) (ha1 : 1 ≤ a.month) (ha2 : a.month ≤ 12)
    (hb1 : 1 ≤ b.month) (hb2 : b.month ≤ 12) (hd : a.day = b.day) :
    dateLeB a b = true ↔ monthIndex a ≤ monthIndex b := by
  cases a; cases b; simp_all [dateLeB, dateLtB, monthIndex]; omega

theorem chain'_range' (S : Nat → Nat → Prop) (hS : ∀ i, S i (i + 1)) :
    ∀ (n a : Nat), List.Chain' S (List.range' a n) := by
  intro n
  induction n with
  | zero => intro a; simp [List.range']
  | succ n ih =>
    intro a
    rw [show List.range' a (n + 1) = a :: List.range' (a + 1) n from rfl]
    rw [List.chain'_cons']
    refine ⟨?_, ih (a + 1)⟩
    intro y hy
    cases n with
    | zero => simp [List.range'] at hy
    | succ n =>
      rw [show List.range' (a + 1) (n + 1) = (a + 1) :: List.range' (a + 2) n from rfl] at hy
      simp at hy
      subst hy
      exact hS a

/-- The month walk of `pl.date_range(..., interval="1mo")` started at a
day-1 date visits exactly the months from `cur`'s month to `e`'s month. -/
theorem dateRange1moAux_eq (fuel : Nat) :
    ∀ (cur e : Date) (l : List Date),
      1 ≤ cur.month → cur.month ≤ 12 → cur.day = 1 →
      1 ≤ e.month → e.month ≤ 12 → e.day = 1 →
      dateRange1moAux fuel cur e = some l →
      l = (List.range' (monthIndex cur) (monthIndex e + 1 - monthIndex cur)).map monthDate := by
  induction fuel with
  | zero => intro cur e l _ _ _ _ _ _ h; simp [dateRange1moAux] at h
  | succ fuel ih =>
    intro cur e l h1 h2 h3 h4 h5 h6 h
    rw [dateRange1moAux] at h
    split at h
    case isTrue hle =>
      rcases Option.map_eq_some'.mp h with ⟨rest, hrest, hl⟩
      have hm1 : 1 ≤ (addOneMonth cur).month := by
        cases cur; unfold addOneMonth; split <;> simp_all
      have hm2 : (addOneMonth cur).month ≤ 12 := by
        cases cur; unfold addOneMonth; split <;> simp_all <;> omega
      have hm3 : (addOneMonth cur).day = 1 := by
        cases cur; unfold addOneMonth; split <;> simp_all
      have hrec := ih (addOneMonth cur) e rest hm1 hm2 hm3 h4 h5 h6 hrest
      have hmi : monthIndex (addOneMonth cur) = monthIndex cur + 1 :=
        monthIndex_addOneMonth cur h1 h2
      have hcole : monthIndex cur ≤ monthIndex e :=
        (dateLeB_day1 cur e h1 h2 h4 h5 (by rw [h3, h6])).mp hle
      subst hl
      rw [show monthIndex e + 1 - monthIndex cur
            = (monthIndex e + 1 - (monthIndex cur + 1)) + 1 by omega]
      rw [show List.range' (monthIndex cur) ((monthIndex e + 1 - (monthIndex cur + 1)) + 1)
            = monthIndex cur :: List.range' (monthIndex cur + 1)
                (monthIndex e + 1 - (monthIndex cur + 1)) from rfl]
      rw [List.map_cons, monthDate_monthIndex cur h1 h2 h3, hrec, hmi]
    case isFalse hle =>
      have hnot : ¬ monthIndex cur ≤ monthIndex e := fun hc =>
        hle ((dateLeB_day1 cur e h1 h2 h4 h5 (by rw [h3, h6])).mpr hc)
      injection h with h'
      rw [← h']
      rw [show monthIndex e + 1 - monthIndex cur = 0 by omega]
      rfl

theorem monthlyDates_eq (fuel : Nat) (s e : Date) (l : List Date)
    (hs : isValidDate s = true) (he : isValidDate e = true)
    (h : monthlyDates fuel s e = some l) :
    l = (List.range' (monthIndex s) (monthIndex e + 1 - monthIndex s)).map monthDate := by
  have hs' := hs; have he' := he
  unfold isValidDate at hs' he'
  simp only [Bool.and_eq_true, decide_eq_true_eq] at hs' he'
  have := dateRange1moAux_eq fuel (replaceDay1 s) (replaceDay1 e) l
    (by simp [replaceDay1]; omega) (by simp [replaceDay1]; omega) rfl
    (by simp [replaceDay1]; omega) (by simp [replaceDay1]; omega) rfl h
  simpa [replaceDay1, monthIndex] using this

/-- C1: for valid dates with `start <= end`, the monthly windowing used by
`FUTURES.fetch_chains` and `STOCKS.fetch_members` produces exactly
`months_between(start, end) + 1` as-of dates, each on day 1 of its month, in
strictly ascending order, whose month indices cover every month of the range
exactly once. -/
theorem c1_monthly_windowing (s e : Date) (fuel : Nat) (l : List Date)
    (hs : isValidDate s = true) (he : isValidDate e = true)
    (hle : dateLeB s e = true)
    (h : monthlyDates fuel s e = some l) :
    l.length = monthsBetween s e + 1 ∧
    (∀ d ∈ l, d.day = 1) ∧
    l.map monthIndex = List.range' (monthIndex s) (monthsBetween s e + 1) ∧
    List.Chain' (fun a b => dateLtB a b = true) l := by
  have hs' := hs; have he' := he
  unfold isValidDate at hs' he'
  simp only [Bool.and_eq_true, decide_eq_true_eq] at hs' he'
  have hmi : monthIndex s ≤ monthIndex e := by
    simp only [dateLeB, dateLtB, Bool.not_eq_true'] at hle
    rcases s with ⟨ys, ms, ds⟩; rcases e with ⟨ye, me, de⟩
    simp only [monthIndex]
    simp only [Bool.or_eq_false_iff, Bool.and_eq_false_iff,
      decide_eq_false_iff_not, beq_eq_false_iff_ne, Bool.or_eq_true,
      Bool.and_eq_true, decide_eq_true_eq, beq_iff_eq] at hle
    simp_all; omega
  have hcnt : monthIndex e + 1 - monthIndex s = monthsBetween s e + 1 := by
    unfold monthsBetween; omega
  have hl := monthlyDates_eq fuel s e l hs he h
  subst hl
  refine ⟨?_, ?_, ?_, ?_⟩
  · rw [List.length_map, List.length_range', hcnt]
  · intro d hd
    rcases List.mem_map.mp hd with ⟨i, _, rfl⟩
    rfl
  · rw [List.map_map]
    rw [show monthIndex ∘ monthDate = id from funext fun i => monthIndex_monthDate i]
    rw [List.map_id, hcnt]
  · rw [List.chain'_map]
    exact chain'_range' _ (fun i => by simp [monthDate, dateLtB]; omega) _ _

/-- C1 witness: the windowing of January through March 2020. -/
theorem c1_monthly_windowing_witness :
    isValidDate ⟨2020, 1, 15⟩ = true ∧ isValidDate ⟨2020, 3, 20⟩ = true ∧
    dateLeB ⟨2020, 1, 15⟩ ⟨2020, 3, 20⟩ = true ∧
    monthlyDates 9 ⟨2020, 1, 15⟩ ⟨2020, 3, 20⟩
      = some [⟨2020, 1, 1⟩, ⟨2020, 2, 1⟩, ⟨2020, 3, 1⟩] ∧
    ([ (⟨2020, 1, 1⟩ : Date), ⟨2020, 2, 1⟩, ⟨2020, 3, 1⟩].length
        = monthsBetween ⟨2020, 1, 15⟩ ⟨2020, 3, 20⟩ + 1 ∧
      (∀ d ∈ [(⟨2020, 1, 1⟩ : Date), ⟨2020, 2, 1⟩, ⟨2020, 3, 1⟩], d.day = 1) ∧
      [(⟨2020, 1, 1⟩ : Date), ⟨2020, 2, 1⟩, ⟨2020, 3, 1⟩].map monthIndex
        = List.range' (monthIndex ⟨2020, 1, 15⟩)
            (monthsBetween ⟨2020, 1, 15⟩ ⟨2020, 3, 20⟩ + 1) ∧
      List.Chain' (fun a b => dateLtB a b = true)
        [(⟨2020, 1, 1⟩ : Date), ⟨2020, 2, 1⟩, ⟨2020, 3, 1⟩]) :=
  ⟨by decide, by decide, by decide, by decide,
    c1_monthly_windowing ⟨2020, 1, 15⟩ ⟨2020, 3, 20⟩ 9 _
      (by decide) (by decide) (by decide) (by decide)⟩

/-- C3 counterexample: `start = 2020-03-15 > end = 2020-03-01`, yet the
monthly windowing yields one window (both bounds normalise to 2020-03-01),
not the empty sequence the claim asserts. -/
theorem c3_counterexample :
    dateLtB ⟨2020, 3, 1⟩ ⟨2020, 3, 15⟩ = true ∧
    isValidDate ⟨2020, 3, 15⟩ = true ∧ isValidDate ⟨2020, 3, 1⟩ = true ∧
    monthlyDates 9 ⟨2020, 3, 15⟩ ⟨2020, 3, 1⟩ = some [⟨2020, 3, 1⟩] := by
  decide

/-- C3 amended: when the month of `start` is strictly after the month of
`end` (the bounds are compared only after both are normalised to day 1), the
windowing yields the empty sequence and raises nothing; with any positive
fuel the walk returns `some []`. -/
theorem c3_amended_empty_windowing (s e : Date) (fuel : Nat)
    (hs : isValidDate s = true) (he : isValidDate e = true)
    (hlt : monthIndex e < monthIndex s) (hf : 0 < fuel) :
    monthlyDates fuel s e = some [] := by
  obtain ⟨f, rfl⟩ : ∃ f, fuel = f + 1 := ⟨fuel - 1, by omega⟩
  have hs' := hs; have he' := he
  unfold isValidDate at hs' he'
  simp only [Bool.and_eq_true, decide_eq_true_eq] at hs' he'
  unfold monthlyDates dateRange1moAux
  have hguard : dateLeB (replaceDay1 s) (replaceDay1 e) = false := by
    rcases s with ⟨ys, ms, ds⟩; rcases e with ⟨ye, me, de⟩
    simp only [monthIndex] at hlt
    simp only [replaceDay1, dateLeB, Bool.not_eq_false']
    simp only [dateLtB, Bool.or_eq_true, Bool.and_eq_true, decide_eq_true_eq, beq_iff_eq]
    simp only at hs' he'
    omega
  rw [hguard]
  rfl

/-- C3 witness for the amended statement: March back to January 2020. -/
theorem c3_amended_empty_windowing_witness :
    isValidDate ⟨2020, 3, 15⟩ = true ∧ isValidDate ⟨2020, 1, 31⟩ = true ∧
    monthIndex ⟨2020, 1, 31⟩ < monthIndex ⟨2020, 3, 15⟩ ∧ 0 < 9 ∧
    monthlyDates 9 ⟨2020, 3, 15⟩ ⟨2020, 1, 31⟩ = some [] :=
  ⟨by decide, by decide, by decide, by decide,
    c3_amended_empty_windowing ⟨2020, 3, 15⟩ ⟨2020, 1, 31⟩ 9
      (by decide) (by decide) (by decide) (by decide)⟩

theorem dateLeB_addYears10 (d : Date) : dateLeB d (addYears10 d) = true := by
  cases d
  unfold addYears10 dateLeB dateLtB
  split <;> simp

/-- Structural invariants of the 10-year chunking loop: the windows form a
chain linked by `addOneDay`, every window end is capped at `today`, every
window is non-degenerate, and the head window starts at the loop entry. -/
theorem buildChunksAux_spec (fuel : Nat) :
    ∀ (cur today : Date) (l : List (Date × Date)),
      buildChunksAux fuel cur today = some l →
      List.Chain' (fun w1 w2 => w2.1 = addOneDay w1.2) l ∧
      (∀ w ∈ l, dateLeB w.2 today = true ∧ dateLeB w.1 w.2 = true) ∧
      (∀ w ∈ l.head?, w.1 = cur) ∧
      (dateLeB cur today = true → l ≠ []) := by
  induction fuel with
  | zero => intro cur today l h; simp [buildChunksAux] at h
  | succ fuel ih =>
    intro cur today l h
    rw [buildChunksAux] at h
    split at h
    case isTrue hle =>
      rcases Option.map_eq_some'.mp h with ⟨rest, hrest, hl⟩
      set curEnd := if dateLtB today (addYears10 cur) then today else addYears10 cur with hEnd
      obtain ⟨hchain, hmem, hhead, _⟩ := ih (addOneDay curEnd) today rest hrest
      have hEndLe : dateLeB curEnd today = true := by
        rw [hEnd]
        split
        · exact dateLeB_refl today
        · next hc => simp [dateLeB, Bool.not_eq_true] at hc ⊢; exact hc
      have hStartLe : dateLeB cur curEnd = true := by
        rw [hEnd]
        split
        · exact hle
        · exact dateLeB_addYears10 cur
      subst hl
      refine ⟨?_, ?_, ?_, ?_⟩
      · rw [List.chain'_cons']
        exact ⟨fun y hy => hhead y hy, hchain⟩
      · intro w hw
        rcases List.mem_cons.mp hw with rfl | hw'
        · exact ⟨hEndLe, hStartLe⟩
        · exact hmem w hw'
      · intro w hw
        simp at hw
        subst hw
        rfl
      · intro _ hcontra
        exact List.cons_ne_nil _ _ hcontra
    case isFalse hle =>
      injection h with h'
      subst h'
      exact ⟨List.chain'_nil, by simp, by simp, fun hc => absurd hc hle⟩

/-- C2: for every loop entry date and every `today` with entry `<= today`,
the 10-year chunk sequence built by `fetch_ohlc` has each window start after
the first equal to the previous window end plus one day, every window end
capped at `today`, windows non-degenerate, the first window starting at the
entry date; and advancing a 10-year step from Feb 29 to a non-leap target
year clamps the candidate end to day 28 of that month. -/
theorem c2_chunked_windowing (startD today : Date) (fuel : Nat)
    (l : List (Date × Date))
    (hle : dateLeB startD today = true)
    (h : buildChunksAux fuel startD today = some l) :
    List.Chain' (fun w1 w2 => w2.1 = addOneDay w1.2) l ∧
    (∀ w ∈ l, dateLeB w.2 today = true) ∧
    (∀ w ∈ l, dateLeB w.1 w.2 = true) ∧
    (∀ w ∈ l.head?, w.1 = startD) ∧ l ≠ [] ∧
    (∀ y, isLeap y = true → isLeap (y + 10) = false →
      addYears10 ⟨y, 2, 29⟩ = ⟨y + 10, 2, 28⟩) := by
  obtain ⟨hchain, hmem, hhead, hne⟩ := buildChunksAux_spec fuel startD today l h
  refine ⟨hchain, fun w hw => (hmem w hw).1, fun w hw => (hmem w hw).2,
    hhead, hne hle, ?_⟩
  intro y _ hy10
  simp [addYears10, daysInMonth, hy10]

/-- Window list produced by the chunking loop from 1990-01-01 with `today`
2026-10-12. -/
def c2Chunks : List (Date × Date) :=
  [(⟨1990, 1, 1⟩, ⟨2000, 1, 1⟩), (⟨2000, 1, 2⟩, ⟨2010, 1, 2⟩),
   (⟨2010, 1, 3⟩, ⟨2020, 1, 3⟩), (⟨2020, 1, 4⟩, ⟨2026, 10, 12⟩)]

/-- C2 witness: the concrete chunk sequence from the fixed floor date
1990-01-01 (the `start` `fetch_ohlc` uses) up to 2026-10-12. -/
theorem c2_chunked_windowing_witness :
    dateLeB ohlcStart ⟨2026, 10, 12⟩ = true ∧
    buildChunks 9 ⟨2026, 10, 12⟩ = some c2Chunks ∧
    (List.Chain' (fun w1 w2 => w2.1 = addOneDay w1.2) c2Chunks ∧
      (∀ w ∈ c2Chunks, dateLeB w.2 ⟨2026, 10, 12⟩ = true) ∧
      (∀ w ∈ c2Chunks, dateLeB w.1 w.2 = true) ∧
      (∀ w ∈ c2Chunks.head?, w.1 = ohlcStart) ∧ c2Chunks ≠ [] ∧
      (∀ y, isLeap y = true → isLeap (y + 10) = false →
        addYears10 ⟨y, 2, 29⟩ = ⟨y + 10, 2, 28⟩)) :=
  ⟨by decide, by decide,
    c2_chunked_windowing ohlcStart ⟨2026, 10, 12⟩ 9 c2Chunks
      (by decide) (by decide)⟩

theorem digitChar_digitVal (c : Char) (h : 48 ≤ c.toNat) :
    digitChar (digitVal c) = c := by
  unfold digitChar digitVal
  rw [show 48 + (c.toNat - 48) = c.toNat by omega]
  exact Char.ofNat_toNat c

/-- Character-level round trip: a list of characters accepted by the
`"%Y%m%d"` parser is reproduced exactly by `"%Y%m%d"` formatting of the
parsed date. -/
theorem parseYmdChars_roundtrip (cs : List Char) (d : Date)
    (h : parseYmdChars cs = some d) : (formatYyyymmdd d).toList = cs := by
  unfold parseYmdChars at h
  split at h
  case h_2 => exact absurd h (by simp)
  case h_1 y1 y2 y3 y4 m1 m2 d1 d2 =>
    split at h
    case isFalse => exact absurd h (by simp)
    case isTrue hdig =>
      dsimp only at h
      split at h
      case isFalse => exact absurd h (by simp)
      case isTrue hrange =>
        injection h with h
        subst h
        simp only [isDigitB, Bool.and_eq_true, decide_eq_true_eq] at hdig
        obtain ⟨⟨⟨⟨⟨⟨⟨hy1, hy2⟩, hy3⟩, hy4⟩, hm1⟩, hm2⟩, hd1⟩, hd2⟩ := hdig
        unfold formatYyyymmdd
        simp only [String.toList]
        have e1 : (1000 * digitVal y1 + 100 * digitVal y2 + 10 * digitVal y3
            + digitVal y4) / 1000 % 10 = digitVal y1 := by
          unfold digitVal; omega
        have e2 : (1000 * digitVal y1 + 100 * digitVal y2 + 10 * digitVal y3
            + digitVal y4) / 100 % 10 = digitVal y2 := by
          unfold digitVal; omega
        have e3 : (1000 * digitVal y1 + 100 * digitVal y2 + 10 * digitVal y3
            + digitVal y4) / 10 % 10 = digitVal y3 := by
          unfold digitVal; omega
        have e4 : (1000 * digitVal y1 + 100 * digitVal y2 + 10 * digitVal y3
            + digitVal y4) % 10 = digitVal y4 := by
          unfold digitVal; omega
        have e5 : (10 * digitVal m1 + digitVal m2) / 10 % 10 = digitVal m1 := by
          unfold digitVal; omega
        have e6 : (10 * digitVal m1 + digitVal m2) % 10 = digitVal m2 := by
          unfold digitVal; omega
        have e7 : (10 * digitVal d1 + digitVal d2) / 10 % 10 = digitVal d1 := by
          unfold digitVal; omega
        have e8 : (10 * digitVal d1 + digitVal d2) % 10 = digitVal d2 := by
          unfold digitVal; omega
        simp only [e1, e2, e3, e4, e5, e6, e7, e8]
        simp only [digitChar_digitVal y1 (by omega),
          digitChar_digitVal y2 (by omega),
          digitChar_digitVal y3 (by omega),
          digitChar_digitVal y4 (by omega),
          digitChar_digitVal m1 (by omega),
          digitChar_digitVal m2 (by omega),
          digitChar_digitVal d1 (by omega),
          digitChar_digitVal d2 (by omega)]

/-- C8: a date string accepted by the strict `YYYYMMDD` parse (for instance
"20250410"), reformatted with `%Y%m%d`, yields the original string; such a
string also passes `is_valid_yyyymmdd`. -/
theorem c8_yyyymmdd_roundtrip (s : String) (d : Date)
    (h : parseYyyymmdd s = some d) :
    formatYyyymmdd d = s ∧ isValidYyyymmdd s = true := by
  constructor
  · have hchars := parseYmdChars_roundtrip s.toList d h
    have : (formatYyyymmdd d).toList = s.toList := hchars
    calc formatYyyymmdd d = String.mk (formatYyyymmdd d).toList := rfl
      _ = String.mk s.toList := by rw [this]
      _ = s := rfl
  · unfold isValidYyyymmdd
    rw [h]
    rfl

/-- C8 witness at the spec's own example string "20250410". -/
theorem c8_yyyymmdd_roundtrip_witness :
    parseYyyymmdd "20250410" = some ⟨2025, 4, 10⟩ ∧
    formatYyyymmdd ⟨2025, 4, 10⟩ = "20250410" ∧
    isValidYyyymmdd "20250410" = true :=
  ⟨by decide, (c8_yyyymmdd_roundtrip "20250410" ⟨2025, 4, 10⟩ (by decide)).1,
    (c8_yyyymmdd_roundtrip "20250410" ⟨2025, 4, 10⟩ (by decide)).2⟩

/-! ## The date order is a linear order; the row orders are total preorders -/

theorem dateLtB_iff (a b : Date) :
    dateLtB a b = true ↔ a.year < b.year ∨ (a.year = b.year ∧
      (a.month < b.month ∨ (a.month = b.month ∧ a.day < b.day))) := by
  cases a; cases b; simp [dateLtB]

theorem dateLtB_trans {a b c : Date} (h1 : dateLtB a b = true)
    (h2 : dateLtB b c = true) : dateLtB a c = true := by
  rw [dateLtB_iff] at h1 h2 ⊢; omega

theorem dateLtB_eq_of_not {a b : Date} (h1 : ¬ dateLtB a b = true)
    (h2 : ¬ dateLtB b a = true) : a = b := by
  rw [dateLtB_iff] at h1 h2
  have hy : a.year = b.year := by omega
  have hm : a.month = b.month := by omega
  have hd : a.day = b.day := by omega
  cases a; cases b
  simp only [Date.mk.injEq]
  exact ⟨hy, hm, hd⟩

theorem dateLeB_eq_not_lt (a b : Date) : dateLeB a b = true ↔ ¬ dateLtB b a = true := by
  simp [dateLeB]

theorem dateLeB_trans {a b c : Date} (h1 : dateLeB a b = true)
    (h2 : dateLeB b c = true) : dateLeB a c = true := by
  rw [dateLeB_eq_not_lt] at h1 h2 ⊢
  rw [dateLtB_iff] at h1 h2 ⊢
  omega

theorem dateLeB_total (a b : Date) : dateLeB a b = true ∨ dateLeB b a = true := by
  rw [dateLeB_eq_not_lt, dateLeB_eq_not_lt, dateLtB_iff, dateLtB_iff]
  omega

theorem strLtB_trans : ∀ {as bs cs : List Char}, strLtB as bs = true →
    strLtB bs cs = true → strLtB as cs = true := by
  intro as
  induction as with
  | nil =>
    intro bs cs h1 h2
    cases bs with
    | nil => exact h2
    | cons b bs => cases cs with
      | nil => simp [strLtB] at h2
      | cons c cs => rfl
  | cons a as ih =>
    intro bs cs h1 h2
    cases bs with
    | nil => simp [strLtB] at h1
    | cons b bs =>
      cases cs with
      | nil => simp [strLtB] at h2
      | cons c cs =>
        simp only [strLtB, Bool.or_eq_true, Bool.and_eq_true, decide_eq_true_eq,
          beq_iff_eq] at h1 h2 ⊢
        rcases h1 with h1 | ⟨e1, r1⟩ <;> rcases h2 with h2 | ⟨e2, r2⟩
        · exact Or.inl (Nat.lt_trans h1 h2)
        · exact Or.inl (e2 ▸ h1)
        · exact Or.inl (e1 ▸ h2)
        · exact Or.inr ⟨e1.trans e2, ih r1 r2⟩

theorem strLtB_eq_of_not : ∀ {as bs : List Char}, ¬ strLtB as bs = true →
    ¬ strLtB bs as = true → as = bs := by
  intro as
  induction as with
  | nil =>
    intro bs h1 _
    cases bs with
    | nil => rfl
    | cons b bs => exact absurd rfl h1
  | cons a as ih =>
    intro bs h1 h2
    cases bs with
    | nil => exact absurd rfl h2
    | cons b bs =>
      simp only [strLtB, Bool.or_eq_true, Bool.and_eq_true, decide_eq_true_eq,
        beq_iff_eq, not_or, not_and] at h1 h2
      have he : a.toNat = b.toNat := by omega
      have ha : a = b := by
        have := Char.ofNat_toNat a
        rw [he] at this
        rw [← this, Char.ofNat_toNat b]
      have : as = bs := ih (h1.2 he) (h2.2 he.symm)
      rw [ha, this]

theorem stringLeB_eq_not_lt (a b : String) :
    stringLeB a b = true ↔ ¬ stringLtB b a = true := by
  simp [stringLeB]

theorem strLtB_irrefl : ∀ (as : List Char), strLtB as as = false := by
  intro as
  induction as with
  | nil => rfl
  | cons a as ih => simp [strLtB, ih]

theorem stringLeB_trans {a b c : String} (h1 : stringLeB a b = true)
    (h2 : stringLeB b c = true) : stringLeB a c = true := by
  rw [stringLeB_eq_not_lt] at h1 h2 ⊢
  intro hca
  by_cases hbc : strLtB b.toList c.toList = true
  · exact h1 (strLtB_trans hbc hca)
  · have he : b.toList = c.toList := strLtB_eq_of_not hbc h2
    exact h1 (show strLtB b.toList a.toList = true by rw [he]; exact hca)

theorem stringLeB_total (a b : String) :
    stringLeB a b = true ∨ stringLeB b a = true := by
  rw [stringLeB_eq_not_lt, stringLeB_eq_not_lt]
  by_cases h : stringLtB b a = true
  · right
    intro hab
    have hcon := strLtB_trans h hab
    rw [strLtB_irrefl] at hcon
    exact Bool.false_ne_true hcon
  · exact Or.inl h

instance instTransLexDS {α : Type} (f : α → Date) (g : α → String) :
    IsTrans α (lexDS f g) := by
  constructor
  intro a b c hab hbc
  unfold lexDS at hab hbc ⊢
  rcases hab with h1 | ⟨e1, s1⟩ <;> rcases hbc with h2 | ⟨e2, s2⟩
  · exact Or.inl (dateLtB_trans h1 h2)
  · exact Or.inl (e2 ▸ h1)
  · exact Or.inl (e1 ▸ h2)
  · exact Or.inr ⟨e1.trans e2, stringLeB_trans s1 s2⟩

instance instTotalLexDS {α : Type} (f : α → Date) (g : α → String) :
    IsTotal α (lexDS f g) := by
  constructor
  intro a b
  unfold lexDS
  by_cases h1 : dateLtB (f a) (f b) = true
  · exact Or.inl (Or.inl h1)
  · by_cases h2 : dateLtB (f b) (f a) = true
    · exact Or.inr (Or.inl h2)
    · have he : f a = f b := dateLtB_eq_of_not h1 h2
      rcases stringLeB_total (g a) (g b) with hs | hs
      · exact Or.inl (Or.inr ⟨he, hs⟩)
      · exact Or.inr (Or.inr ⟨he.symm, hs⟩)

instance instTransLexSD {α : Type} (f : α → String) (g : α → Date) :
    IsTrans α (lexSD f g) := by
  constructor
  intro a b c hab hbc
  unfold lexSD at hab hbc ⊢
  rcases hab with h1 | ⟨e1, s1⟩ <;> rcases hbc with h2 | ⟨e2, s2⟩
  · exact Or.inl (show strLtB (f a).toList (f c).toList = true from strLtB_trans h1 h2)
  · exact Or.inl (e2 ▸ h1)
  · exact Or.inl (e1 ▸ h2)
  · exact Or.inr ⟨e1.trans e2, dateLeB_trans s1 s2⟩

instance instTotalLexSD {α : Type} (f : α → String) (g : α → Date) :
    IsTotal α (lexSD f g) := by
  constructor
  intro a b
  unfold lexSD
  by_cases h1 : stringLtB (f a) (f b) = true
  · exact Or.inl (Or.inl h1)
  · by_cases h2 : stringLtB (f b) (f a) = true
    · exact Or.inr (Or.inl h2)
    · have he : f a = f b := by
        have : (f a).toList = (f b).toList := strLtB_eq_of_not h1 h2
        calc f a = String.mk (f a).toList := rfl
          _ = String.mk (f b).toList := by rw [this]
          _ = f b := rfl
      rcases dateLeB_total (g a) (g b) with hd | hd
      · exact Or.inl (Or.inr ⟨he, hd⟩)
      · exact Or.inr (Or.inr ⟨he.symm, hd⟩)

instance instTransStockMetaOrder : IsTrans StockMetaRow stockMetaOrder :=
  ⟨fun _ _ _ h1 h2 => stringLeB_trans h1 h2⟩

instance instTotalStockMetaOrder : IsTotal StockMetaRow stockMetaOrder :=
  ⟨fun a b => stringLeB_total a.symbol b.symbol⟩

/-! ## Facts about `mapM` over `Except` -/

theorem mapM_except_ok_mem {α β : Type} (f : α → Except String β) :
    ∀ (l : List α) (ts : List β), l.mapM f = .ok ts → ∀ t ∈ ts, ∃ a ∈ l, f a = .ok t := by
  intro l
  induction l with
  | nil =>
    intro ts h t ht
    rw [List.mapM_nil] at h
    injection h with h
    subst h
    simp at ht
  | cons a rest ih =>
    intro ts h t ht
    rw [List.mapM_cons] at h
    cases hfa : f a with
    | error e => rw [hfa] at h; simp [Bind.bind, Except.bind] at h
    | ok x =>
      rw [hfa] at h
      cases hrest : rest.mapM f with
      | error e => rw [hrest] at h; simp [Bind.bind, Except.bind] at h
      | ok xs =>
        rw [hrest] at h
        simp only [Bind.bind, Except.bind, pure, Except.pure] at h
        injection h with h
        subst h
        rcases List.mem_cons.mp ht with rfl | hmem
        · exact ⟨a, by simp, hfa⟩
        · obtain ⟨b, hb, hfb⟩ := ih xs hrest t hmem
          exact ⟨b, by simp [hb], hfb⟩

theorem mapM_except_congr {α β : Type} (f g : α → Except String β) :
    ∀ (l : List α), (∀ a ∈ l, f a = g a) → l.mapM f = l.mapM g := by
  intro l
  induction l with
  | nil => intro _; rfl
  | cons a rest ih =>
    intro h
    rw [List.mapM_cons, List.mapM_cons, h a (by simp),
      ih (fun x hx => h x (by simp [hx]))]

theorem mapM_divs_all_none (env : String → Except String (List DivRaw)) :
    ∀ (syms : List String),
      (∀ s ∈ syms, ∃ raw, env s = .ok raw ∧ fetchDivOne s raw = none) →
      syms.mapM (fun s => (env s).map (fetchDivOne s))
        = .ok (syms.map fun _ => (none : Option (List DivRow))) := by
  intro syms
  induction syms with
  | nil => intro _; rfl
  | cons s rest ih =>
    intro h
    obtain ⟨raw, henv, hnone⟩ := h s (by simp)
    rw [List.mapM_cons, henv]
    rw [ih (fun x hx => h x (by simp [hx]))]
    simp [Except.map, hnone, Bind.bind, Except.bind, pure, Except.pure]

theorem filterMap_id_map_none {α β : Type} (l : List α) :
    (l.map fun _ => (none : Option β)).filterMap id = [] := by
  induction l with
  | nil => rfl
  | cons a rest ih => simp [ih]

/-! ## C4, C5, C9: accessor wiring and dividend error handling -/

/-- C4 (code bug): in the unfetched state, the `symbols` accessor of
`STOCKS` raises a prerequisite error telling the caller to run
`fetch_symbols()` — but no such method is defined on the class; the method
that actually populates `_symbols` is `fetch_members` (shown on a concrete
run).  The `fetch_meta` prerequisite error, in contrast, correctly names
`fetch_members`. -/
theorem c4_symbols_accessor_names_missing_method :
    stocksSymbolsAcc exStocksInit
      = .error "symbols not available yet. Please run `fetch_symbols()` first." ∧
    "fetch_symbols" ∉ stocksFetchMethods ∧
    "fetch_members" ∈ stocksFetchMethods ∧
    (stocksFetchMembers envMembersTwo 9 ⟨2020, 1, 1⟩ ⟨2020, 1, 1⟩ exStocksInit).1.symbols
      = some ["AAPL Equity", "MSFT Equity"] ∧
    (stocksFetchMeta envSMetaFail exStocksInit).2
      = some "Historical index members must be fetched. Please run `fetch_members()` first." := by
  decide

/-- C5 counterexample: when the remote dividend call itself fails for X
(and Y parses fine), `fetch_divs` raises — the `bds` call sits outside the
`try` block — instead of skipping X, contradicting the claim that the skip
also covers remote-call failure. -/
theorem c5_counterexample_call_failure_not_skipped :
    exMembersState.symbols = some ["X Equity", "Y Equity"] ∧
    envDivCallFailX "X Equity" = .error "remote call failed" ∧
    envDivCallFailX "Y Equity" = .ok [exGoodDivRaw] ∧
    fetchDivOne "Y Equity" [exGoodDivRaw] = some [exGoodDivRowY] ∧
    stocksFetchDivs envDivCallFailX exMembersState
      = (exMembersState, some "remote call failed") := by
  decide

/-- C5 amended: with symbols X and Y, a malformed payload for X is skipped
— no exception, no X rows, result exactly Y's parsed rows — while a failure
of the remote call itself for X propagates out of `fetch_divs`. -/
theorem c5_amended_divs_tolerance
    (env1 env2 : String → Except String (List DivRaw))
    (st : StocksState) (mt : List MemberRow) (X Y : String)
    (rawX rawY : List DivRaw) (tableY : List DivRow) (err : String)
    (hm : st.members = some mt) (hs : st.symbols = some [X, Y])
    (h1X : env1 X = .ok rawX) (h1Xbad : fetchDivOne X rawX = none)
    (h1Y : env1 Y = .ok rawY) (h1Yok : fetchDivOne Y rawY = some tableY)
    (h2X : env2 X = .error err) :
    (stocksFetchDivs env1 st).2 = none ∧
    (stocksFetchDivs env1 st).1.divs
      = some (List.insertionSort (lexSD DivRow.symbol DivRow.declared_date) tableY) ∧
    stocksFetchDivs env2 st = (st, some err) := by
  unfold stocksFetchDivs
  simp only [hm, hs, List.mapM_cons, List.mapM_nil, h1X, h1Y, h2X, Except.map,
    Bind.bind, Except.bind, pure, Except.pure, h1Xbad, h1Yok]
  simp [plConcat]

/-- C5 witness for the amended statement: X malformed, Y good, under both
the parse-failure and the call-failure environments. -/
theorem c5_amended_divs_tolerance_witness :
    (exMembersState.members = some [⟨⟨2020, 1, 1⟩, "X Equity"⟩, ⟨⟨2020, 1, 1⟩, "Y Equity"⟩] ∧
      exMembersState.symbols = some ["X Equity", "Y Equity"] ∧
      envDivParseFailX "X Equity" = .ok [exBadDivRaw] ∧
      fetchDivOne "X Equity" [exBadDivRaw] = none ∧
      envDivParseFailX "Y Equity" = .ok [exGoodDivRaw] ∧
      fetchDivOne "Y Equity" [exGoodDivRaw] = some [exGoodDivRowY] ∧
      envDivCallFailX "X Equity" = .error "remote call failed") ∧
    ((stocksFetchDivs envDivParseFailX exMembersState).2 = none ∧
      (stocksFetchDivs envDivParseFailX exMembersState).1.divs
        = some (List.insertionSort (lexSD DivRow.symbol DivRow.declared_date) [exGoodDivRowY]) ∧
      stocksFetchDivs envDivCallFailX exMembersState
        = (exMembersState, some "remote call failed")) :=
  ⟨⟨by decide, by decide, by decide, by decide, by decide, by decide, by decide⟩,
    c5_amended_divs_tolerance envDivParseFailX envDivCallFailX exMembersState
      [⟨⟨2020, 1, 1⟩, "X Equity"⟩, ⟨⟨2020, 1, 1⟩, "Y Equity"⟩]
      "X Equity" "Y Equity" [exBadDivRaw] [exGoodDivRaw] [exGoodDivRowY]
      "remote call failed" (by decide) (by decide) (by decide) (by decide)
      (by decide) (by decide) (by decide)⟩

/-- C9: when the per-symbol dividend fetch yields a malformed payload for
every symbol (so every per-symbol table is `None`), `fetch_divs` raises the
`pl.concat` empty-list error rather than storing an empty dividends
dataset, and the state is unchanged. -/
theorem c9_all_symbols_malformed_raises
    (env : String → Except String (List DivRaw)) (st : StocksState)
    (mt : List MemberRow) (syms : List String)
    (hm : st.members = some mt) (hs : st.symbols = some syms)
    (hfail : ∀ s ∈ syms, ∃ raw, env s = .ok raw ∧ fetchDivOne s raw = none) :
    stocksFetchDivs env st = (st, some "cannot concat empty list") := by
  unfold stocksFetchDivs
  simp only [hm, hs]
  rw [mapM_divs_all_none env syms hfail]
  simp [filterMap_id_map_none, plConcat]

/-- C9 witness: both X and Y return malformed payloads. -/
theorem c9_all_symbols_malformed_raises_witness :
    (exMembersState.members = some [⟨⟨2020, 1, 1⟩, "X Equity"⟩, ⟨⟨2020, 1, 1⟩, "Y Equity"⟩] ∧
      exMembersState.symbols = some ["X Equity", "Y Equity"] ∧
      envDivAllBad "X Equity" = .ok [exBadDivRaw] ∧
      fetchDivOne "X Equity" [exBadDivRaw] = none ∧
      fetchDivOne "Y Equity" [exBadDivRaw] = none) ∧
    stocksFetchDivs envDivAllBad exMembersState
      = (exMembersState, some "cannot concat empty list") :=
  ⟨⟨by decide, by decide, by decide, by decide, by decide⟩,
    c9_all_symbols_malformed_raises envDivAllBad exMembersState
      [⟨⟨2020, 1, 1⟩, "X Equity"⟩, ⟨⟨2020, 1, 1⟩, "Y Equity"⟩]
      ["X Equity", "Y Equity"] (by decide) (by decide)
      (fun s _ => ⟨[exBadDivRaw], rfl, rfl⟩)⟩

/-! ## C6: a failing phase leaves the object state untouched -/

/-- C6: for every fetch phase of every entity, whenever the phase raises
(the second component reports an error), the object state is returned
exactly as it was — the phase's own dataset attribute is unchanged and all
datasets populated by earlier phases keep their previous values, because
every method assigns its dataset attributes only after its last fallible
call or transformation. -/
theorem c6_failed_phase_leaves_state_unchanged
    (st : StocksState) (stF : FuturesState) (stI : IndexState)
    (envMem : Date → Except String (List ConstituentRaw))
    (envSMeta : List String → Except String (List StockMetaRaw))
    (envDiv : String → Except String (List DivRaw))
    (envSOhlc : List String → Date → Date → Except String (List StockOhlcRaw))
    (envChain : Date → Except String (List ChainRaw))
    (envFMeta : List String → Except String (List FutMetaRaw))
    (envFOhlc : List String → Date → Date → Except String (List FutOhlcRaw))
    (envIdx : String → Date → Date → Except String (List IdxOhlcRaw))
    (envIdx1 : String → Nat → Date → Date → Except String (List Idx1MinRaw))
    (fuel interval : Nat) (d1 d2 today : Date) (startS endS : String) :
    ((stocksFetchMembers envMem fuel d1 d2 st).2.isSome →
      (stocksFetchMembers envMem fuel d1 d2 st).1 = st) ∧
    ((stocksFetchMeta envSMeta st).2.isSome → (stocksFetchMeta envSMeta st).1 = st) ∧
    ((stocksFetchDivs envDiv st).2.isSome → (stocksFetchDivs envDiv st).1 = st) ∧
    ((stocksFetchOhlc envSOhlc today fuel st).2.isSome →
      (stocksFetchOhlc envSOhlc today fuel st).1 = st) ∧
    ((futuresFetchChains envChain fuel startS endS stF).2.isSome →
      (futuresFetchChains envChain fuel startS endS stF).1 = stF) ∧
    ((futuresFetchMeta envFMeta stF).2.isSome → (futuresFetchMeta envFMeta stF).1 = stF) ∧
    ((futuresFetchOhlc envFOhlc today fuel stF).2.isSome →
      (futuresFetchOhlc envFOhlc today fuel stF).1 = stF) ∧
    ((indexFetchOhlcDaily envIdx d1 d2 stI).2.isSome →
      (indexFetchOhlcDaily envIdx d1 d2 stI).1 = stI) ∧
    ((indexFetchOhlc1Min envIdx1 interval d1 d2 stI).2.isSome →
      (indexFetchOhlc1Min envIdx1 interval d1 d2 stI).1 = stI) := by
  refine ⟨?_, ?_, ?_, ?_, ?_, ?_, ?_, ?_, ?_⟩
  · unfold stocksFetchMembers
    repeat' split
    all_goals simp
  · unfold stocksFetchMeta
    repeat' split
    all_goals simp
  · unfold stocksFetchDivs
    repeat' split
    all_goals simp
  · unfold stocksFetchOhlc
    repeat' split
    all_goals simp
  · unfold futuresFetchChains
    repeat' split
    all_goals simp
  · unfold futuresFetchMeta
    repeat' split
    all_goals simp
  · unfold futuresFetchOhlc
    repeat' split
    all_goals simp
  · unfold indexFetchOhlcDaily
    repeat' split
    all_goals simp
  · unfold indexFetchOhlc1Min
    repeat' split
    all_goals simp

/-- C6 witness: every phase run against a failing remote call, on states
with the earlier phases populated; every dataset keeps its previous value. -/
theorem c6_failed_phase_leaves_state_unchanged_witness :
    (stocksFetchMembers envMemFail 9 ⟨2020, 1, 1⟩ ⟨2020, 3, 1⟩ exMembersState).1
      = exMembersState ∧
    (stocksFetchMeta envSMetaFail exMembersState).1 = exMembersState ∧
    (stocksFetchDivs envDivFail exMembersState).1 = exMembersState ∧
    (stocksFetchOhlc envSOhlcFail ⟨2026, 10, 12⟩ 9 exMembersState).1 = exMembersState ∧
    (futuresFetchChains envChainFail 9 "20200101" "20200301" exFuturesState).1
      = exFuturesState ∧
    (futuresFetchMeta envFMetaFail exFuturesState).1 = exFuturesState ∧
    (futuresFetchOhlc envFOhlcFail ⟨2026, 10, 12⟩ 9 exFuturesState).1 = exFuturesState ∧
    (indexFetchOhlcDaily envIdxFail ⟨2020, 1, 1⟩ ⟨2020, 3, 1⟩ exIndexState).1
      = exIndexState ∧
    (indexFetchOhlc1Min envIdx1Fail 1 ⟨2020, 1, 1⟩ ⟨2020, 3, 1⟩ exIndexState).1
      = exIndexState := by
  have h := c6_failed_phase_leaves_state_unchanged exMembersState exFuturesState
    exIndexState envMemFail envSMetaFail envDivFail envSOhlcFail envChainFail
    envFMetaFail envFOhlcFail envIdxFail envIdx1Fail 9 1
    ⟨2020, 1, 1⟩ ⟨2020, 3, 1⟩ ⟨2026, 10, 12⟩ "20200101" "20200301"
  exact ⟨h.1 (by decide), h.2.1 (by decide), h.2.2.1 (by decide),
    h.2.2.2.1 (by decide), h.2.2.2.2.1 (by decide), h.2.2.2.2.2.1 (by decide),
    h.2.2.2.2.2.2.1 (by decide), h.2.2.2.2.2.2.2.1 (by decide),
    h.2.2.2.2.2.2.2.2 (by decide)⟩

/-! ## C7: meta sort order -/

/-- C7 counterexample: a successful `STOCKS.fetch_meta` whose output is in
symbol order but not in the claimed "primary date/time field then symbol"
order: row A (start 10:00:00) precedes row B (start 09:00:00). -/
theorem c7_counterexample_stocks_meta_not_date_sorted :
    (stocksFetchMeta c7StockMetaEnv exMembersState).2 = none ∧
    (stocksFetchMeta c7StockMetaEnv exMembersState).1.meta = some [c7RowA, c7RowB] ∧
    ¬ List.Sorted stockMetaSpecOrder [c7RowA, c7RowB] := by
  decide

/-- C7 amended: `FUTURES.fetch_meta` sorts its table by
`(fut_first_trade_dt, symbol)`; `STOCKS.fetch_meta`, whose table has no
date column, sorts by `symbol` alone (and `INDEX` has no metadata fetch). -/
theorem c7_amended_meta_sort_orders
    (envF : List String → Except String (List FutMetaRaw))
    (envS : List String → Except String (List StockMetaRaw))
    (stF stF' : FuturesState) (st st' : StocksState)
    (tF : List FutMetaRow) (tS : List StockMetaRow)
    (hF : futuresFetchMeta envF stF = (stF', none)) (hFm : stF'.meta = some tF)
    (hS : stocksFetchMeta envS st = (st', none)) (hSm : st'.meta = some tS) :
    List.Sorted (lexDS FutMetaRow.fut_first_trade_dt FutMetaRow.symbol) tF ∧
    List.Sorted stockMetaOrder tS := by
  constructor
  · unfold futuresFetchMeta at hF
    split at hF
    case h_2 =>
      injection hF with _ h2
      exact absurd h2 (by simp)
    case h_1 =>
      split at hF
      case h_1 =>
        injection hF with _ h2
        exact absurd h2 (by simp)
      case h_2 =>
        split at hF
        case h_1 =>
          injection hF with _ h2
          exact absurd h2 (by simp)
        case h_2 =>
          injection hF with h1 _
          subst h1
          have := Option.some.inj hFm
          rw [← this]
          exact List.sorted_insertionSort _ _
  · unfold stocksFetchMeta at hS
    split at hS
    case h_2 =>
      injection hS with _ h2
      exact absurd h2 (by simp)
    case h_1 =>
      split at hS
      case h_1 =>
        injection hS with _ h2
        exact absurd h2 (by simp)
      case h_2 =>
        split at hS
        case h_1 =>
          injection hS with _ h2
          exact absurd h2 (by simp)
        case h_2 =>
          injection hS with h1 _
          subst h1
          have := Option.some.inj hSm
          rw [← this]
          exact List.sorted_insertionSort _ _

/-- C7 witness for the amended statement, on concrete metadata fetches. -/
theorem c7_amended_meta_sort_orders_witness :
    (futuresFetchMeta c7FutMetaEnv exFuturesState
        = ({ exFuturesState with meta := some [c7FutRow] }, none) ∧
      ({ exFuturesState with meta := some [c7FutRow] } : FuturesState).meta
        = some [c7FutRow] ∧
      stocksFetchMeta c7StockMetaEnv exMembersState
        = ({ exMembersState with meta := some [c7RowA, c7RowB] }, none) ∧
      ({ exMembersState with meta := some [c7RowA, c7RowB] } : StocksState).meta
        = some [c7RowA, c7RowB]) ∧
    (List.Sorted (lexDS FutMetaRow.fut_first_trade_dt FutMetaRow.symbol) [c7FutRow] ∧
      List.Sorted stockMetaOrder [c7RowA, c7RowB]) :=
  ⟨⟨by decide, by decide, by decide, by decide⟩,
    c7_amended_meta_sort_orders c7FutMetaEnv c7StockMetaEnv exFuturesState
      { exFuturesState with meta := some [c7FutRow] } exMembersState
      { exMembersState with meta := some [c7RowA, c7RowB] }
      [c7FutRow] [c7RowA, c7RowB] (by decide) (by decide) (by decide) (by decide)⟩

/-! ## C10: the " Equity" suffix and the derived symbol set -/

/-- C10: after a successful `fetch_members`, every stored members row is an
"Index Member" value with " Equity" appended, the symbol set is exactly the
distinct symbols of the members table, and the downstream fetches consult
the remote environment only through that symbol list (their results depend
on the environment only at those tickers). -/
theorem c10_members_equity_suffix
    (env : Date → Except String (List ConstituentRaw))
    (fuel : Nat) (d1 d2 : Date) (st st' : StocksState)
    (h : stocksFetchMembers env fuel d1 d2 st = (st', none)) :
    ∃ rows, st'.members = some rows ∧
      st'.symbols = some ((rows.map MemberRow.symbol).dedup) ∧
      (∀ row ∈ rows, ∃ dd raw r, env dd = .ok raw ∧ r ∈ raw ∧
        row.symbol = r.member ++ " Equity") ∧
      (∀ sym ∈ (rows.map MemberRow.symbol).dedup, ∃ m, sym = m ++ " Equity") ∧
      (∀ envM envM₂ : List String → Except String (List StockMetaRaw),
        envM ((rows.map MemberRow.symbol).dedup) = envM₂ ((rows.map MemberRow.symbol).dedup) →
        stocksFetchMeta envM st' = stocksFetchMeta envM₂ st') ∧
      (∀ envD envD₂ : String → Except String (List DivRaw),
        (∀ s ∈ (rows.map MemberRow.symbol).dedup, envD s = envD₂ s) →
        stocksFetchDivs envD st' = stocksFetchDivs envD₂ st') ∧
      (∀ (envO envO₂ : List String → Date → Date → Except String (List StockOhlcRaw))
        (today : Date) (fuel₂ : Nat),
        (∀ a b, envO ((rows.map MemberRow.symbol).dedup) a b
          = envO₂ ((rows.map MemberRow.symbol).dedup) a b) →
        stocksFetchOhlc envO today fuel₂ st' = stocksFetchOhlc envO₂ today fuel₂ st') := by
  unfold stocksFetchMembers at h
  split at h
  case h_1 =>
    injection h with _ h2
    exact absurd h2 (by simp)
  case h_2 dates hdates =>
    split at h
    case h_1 =>
      injection h with _ h2
      exact absurd h2 (by simp)
    case h_2 tables htables =>
      split at h
      case h_1 =>
        injection h with _ h2
        exact absurd h2 (by simp)
      case h_2 rows0 hconcat =>
        injection h with h1 _
        subst h1
        refine ⟨_, rfl, rfl, ?_, ?_, ?_, ?_, ?_⟩
        · intro row hrow
          have hmem : row ∈ rows0 :=
            ((List.perm_insertionSort _ rows0).mem_iff).mp hrow
          have hrows0 : rows0 = tables.flatten := by
            unfold plConcat at hconcat
            split at hconcat
            · exact absurd hconcat (by simp)
            · injection hconcat with h
              exact h.symm
          rw [hrows0] at hmem
          obtain ⟨t, ht, hrt⟩ := List.mem_flatten.mp hmem
          obtain ⟨dd, hdd, hfd⟩ := mapM_except_ok_mem _ dates tables htables t ht
          cases henv : env dd with
          | error e => rw [henv] at hfd; simp [Except.map] at hfd
          | ok raw =>
            rw [henv] at hfd
            simp only [Except.map, Except.ok.injEq] at hfd
            rw [← hfd] at hrt
            obtain ⟨r, hr, hrow_eq⟩ := List.mem_map.mp hrt
            exact ⟨dd, raw, r, henv, hr, by rw [← hrow_eq]⟩
        · intro sym hsym
          have : sym ∈ (List.insertionSort (lexDS MemberRow.as_of MemberRow.symbol) rows0).map
              MemberRow.symbol := List.mem_dedup.mp hsym
          obtain ⟨row, hrow, hsymeq⟩ := List.mem_map.mp this
          have hmem : row ∈ rows0 :=
            ((List.perm_insertionSort _ rows0).mem_iff).mp hrow
          have hrows0 : rows0 = tables.flatten := by
            unfold plConcat at hconcat
            split at hconcat
            · exact absurd hconcat (by simp)
            · injection hconcat with h
              exact h.symm
          rw [hrows0] at hmem
          obtain ⟨t, ht, hrt⟩ := List.mem_flatten.mp hmem
          obtain ⟨dd, hdd, hfd⟩ := mapM_except_ok_mem _ dates tables htables t ht
          cases henv : env dd with
          | error e => rw [henv] at hfd; simp [Except.map] at hfd
          | ok raw =>
            rw [henv] at hfd
            simp only [Except.map, Except.ok.injEq] at hfd
            rw [← hfd] at hrt
            obtain ⟨r, hr, hrow_eq⟩ := List.mem_map.mp hrt
            exact ⟨r.member, by rw [← hsymeq, ← hrow_eq]⟩
        · intro envM envM₂ hagree
          unfold stocksFetchMeta
          dsimp only
          rw [hagree]
        · intro envD envD₂ hagree
          unfold stocksFetchDivs
          dsimp only
          rw [mapM_except_congr _ _ _ (fun s hs => by rw [hagree s hs])]
        · intro envO envO₂ today fuel₂ hagree
          unfold stocksFetchOhlc
          dsimp only
          have : (fun w : Date × Date => (envO ((List.insertionSort
              (lexDS MemberRow.as_of MemberRow.symbol) rows0).map MemberRow.symbol).dedup w.1 w.2).bind
              (fun raw => raw.mapM parseStockOhlcRow))
              = (fun w : Date × Date => (envO₂ ((List.insertionSort
              (lexDS MemberRow.as_of MemberRow.symbol) rows0).map MemberRow.symbol).dedup w.1 w.2).bind
              (fun raw => raw.mapM parseStockOhlcRow)) := by
            funext w
            rw [hagree w.1 w.2]
          rw [this]

/-- C10 witness: two constituents per month over two months. -/
theorem c10_members_equity_suffix_witness :
    ∃ rows,
      (stocksFetchMembers envMembersTwo 9 ⟨2020, 1, 5⟩ ⟨2020, 2, 10⟩ exStocksInit).1.members
        = some rows ∧
      (stocksFetchMembers envMembersTwo 9 ⟨2020, 1, 5⟩ ⟨2020, 2, 10⟩ exStocksInit).1.symbols
        = some ((rows.map MemberRow.symbol).dedup) ∧
      (∀ row ∈ rows, ∃ dd raw r, envMembersTwo dd = .ok raw ∧ r ∈ raw ∧
        row.symbol = r.member ++ " Equity") ∧
      (∀ sym ∈ (rows.map MemberRow.symbol).dedup, ∃ m, sym = m ++ " Equity") ∧
      (∀ envM envM₂ : List String → Except String (List StockMetaRaw),
        envM ((rows.map MemberRow.symbol).dedup) = envM₂ ((rows.map MemberRow.symbol).dedup) →
        stocksFetchMeta envM (stocksFetchMembers envMembersTwo 9 ⟨2020, 1, 5⟩ ⟨2020, 2, 10⟩ exStocksInit).1
          = stocksFetchMeta envM₂ (stocksFetchMembers envMembersTwo 9 ⟨2020, 1, 5⟩ ⟨2020, 2, 10⟩ exStocksInit).1) ∧
      (∀ envD envD₂ : String → Except String (List DivRaw),
        (∀ s ∈ (rows.map MemberRow.symbol).dedup, envD s = envD₂ s) →
        stocksFetchDivs envD (stocksFetchMembers envMembersTwo 9 ⟨2020, 1, 5⟩ ⟨2020, 2, 10⟩ exStocksInit).1
          = stocksFetchDivs envD₂ (stocksFetchMembers envMembersTwo 9 ⟨2020, 1, 5⟩ ⟨2020, 2, 10⟩ exStocksInit).1) ∧
      (∀ (envO envO₂ : List String → Date → Date → Except String (List StockOhlcRaw))
        (today : Date) (fuel₂ : Nat),
        (∀ a b, envO ((rows.map MemberRow.symbol).dedup) a b
          = envO₂ ((rows.map MemberRow.symbol).dedup) a b) →
        stocksFetchOhlc envO today fuel₂ (stocksFetchMembers envMembersTwo 9 ⟨2020, 1, 5⟩ ⟨2020, 2, 10⟩ exStocksInit).1
          = stocksFetchOhlc envO₂ today fuel₂ (stocksFetchMembers envMembersTwo 9 ⟨2020, 1, 5⟩ ⟨2020, 2, 10⟩ exStocksInit).1) :=
  c10_members_equity_suffix envMembersTwo 9 ⟨2020, 1, 5⟩ ⟨2020, 2, 10⟩ exStocksInit
    (stocksFetchMembers envMembersTwo 9 ⟨2020, 1, 5⟩ ⟨2020, 2, 10⟩ exStocksInit).1
    (by decide)

end DataVault
